import Mathlib

/-!
# Verification of the zk-payroll note-pool backend and `PrivatePayroll` contract

A shallow embedding of the core of the `0xunderfo/zk-payroll` repository:

* the Merkle commitment tree (`backend/src/lib/merkle.ts`),
* the Poseidon request-hash computations (`backend/src/lib/poseidon.ts` and
  `contracts/src/PrivatePayroll.sol`),
* the `PrivatePayroll` contract's reservation/finalization state machine,
* the backend store (Postgres tables `batches`/`notes`/`claims`) and the
  withdrawal-coordinator routes (`backend/src/routes/claim.ts`,
  `backend/src/routes/payroll.ts`).

The Poseidon permutation, keccak, AES-GCM claim tokens, the Groth16 prover and
verifier, and the Plasma relayer are external collaborators of the repository
(consumed through `circomlibjs`, deployed bytecode, and HTTP clients); they are
modelled as abstract function parameters and oracles, exactly at the boundary
where the source code calls out of process.

Machine integers: all field elements, addresses and `uint256`/`bytes32` values
are modelled as `Nat`.  None of the embedded code paths perform wrapping
arithmetic (Solidity 0.8 reverts on overflow; the TypeScript side uses
arbitrary-precision `bigint`), so no explicit `% 2^w` reductions are required.
-/

namespace ZkPayroll

/-! ## Commitment tree — `backend/src/lib/merkle.ts`

`poseidonHash` on two inputs is abstracted as `H2 : Nat → Nat → Nat`. -/

/-- `computeZeroHashes`: `zeros[0] = 0`, `zeros[i] = Hash(zeros[i-1], zeros[i-1])`. -/
def zeroHash (H2 : Nat → Nat → Nat) : Nat → Nat
  | 0 => 0
  | n + 1 => H2 (zeroHash H2 n) (zeroHash H2 n)

/-- The pairing loop of `buildNextLevel`: `left = nodes[i]`,
`right = nodes[i+1] ?? levelZero`, stepping `i` by 2. -/
def pairHash (H2 : Nat → Nat → Nat) (z : Nat) : List Nat → List Nat
  | [] => []
  | [a] => [H2 a z]
  | a :: b :: rest => H2 a b :: pairHash H2 z rest

/-- `buildNextLevel(nodes, levelZero)` from `merkle.ts`: an empty level collapses
to one hash of the level zero with itself. -/
def buildNextLevel (H2 : Nat → Nat → Nat) (nodes : List Nat) (levelZero : Nat) : List Nat :=
  match nodes with
  | [] => [H2 levelZero levelZero]
  | a :: rest => pairHash H2 levelZero (a :: rest)

/-- The `for (level = 0; level < depth; level++)` loop shared by
`computeMerkleRoot` and `computeMerkleProof`: folds `buildNextLevel` `count`
times starting at level `level`. -/
def buildLevels (H2 : Nat → Nat → Nat) : List Nat → Nat → Nat → List Nat
  | nodes, _, 0 => nodes
  | nodes, level, n + 1 =>
      buildLevels H2 (buildNextLevel H2 nodes (zeroHash H2 level)) (level + 1) n

/-- `computeMerkleRoot(leaves, depth)`: seeds the bottom level with `[0]` when
`leaves` is empty, folds the levels, and returns `levelNodes[0] ?? zeroHashes[depth]`. -/
def computeMerkleRoot (H2 : Nat → Nat → Nat) (leaves : List Nat) (depth : Nat) : Nat :=
  (buildLevels H2 (if leaves.isEmpty then [0] else leaves) 0 depth).headD (zeroHash H2 depth)

/-- The body of `computeMerkleProof`'s level loop: records the sibling
`levelNodes[idx ^ 1] ?? zeroHashes[level]` and the parity bit `idx & 1`, then
advances to the next level with `idx / 2`. -/
def proofLoop (H2 : Nat → Nat → Nat) : List Nat → Nat → Nat → Nat → List Nat × List Nat
  | _, _, _, 0 => ([], [])
  | nodes, idx, level, n + 1 =>
      let z := zeroHash H2 level
      let sib := nodes.getD (idx ^^^ 1) z
      let rest := proofLoop H2 (buildNextLevel H2 nodes z) (idx / 2) (level + 1) n
      (sib :: rest.1, (idx % 2) :: rest.2)

/-- `computeMerkleProof(leaves, depth, leafIndex)`; the out-of-range guard
(`leafIndex ≥ leaves.length` throws) is rendered as `none`. -/
def computeMerkleProof (H2 : Nat → Nat → Nat) (leaves : List Nat) (depth : Nat)
    (leafIndex : Nat) : Option (List Nat × List Nat) :=
  if leafIndex < leaves.length then some (proofLoop H2 leaves leafIndex 0 depth) else none

/-- Folding a Merkle path upward from a leaf: hash `(node, sibling)` when the
path index marks a left child (`0`) and `(sibling, node)` otherwise.  This is
the verifier-side recombination the round-trip property (spec §8) refers to. -/
def foldProofPath (H2 : Nat → Nat → Nat) : Nat → List Nat → List Nat → Nat
  | node, [], _ => node
  | node, _ :: _, [] => node
  | node, e :: es, i :: is =>
      foldProofPath H2 (if i = 0 then H2 node e else H2 e node) es is


/-! ### Auxiliary lemmas for the tree -/

theorem xor_one_even (m : Nat) : (2 * m) ^^^ 1 = 2 * m + 1 := by
  have h := Nat.bitwise_bit (f := Bool.xor) rfl false m true 0
  simpa [Nat.bit, HXor.hXor, Xor.xor] using h

theorem xor_one_odd (m : Nat) : (2 * m + 1) ^^^ 1 = 2 * m := by
  have h := Nat.bitwise_bit (f := Bool.xor) rfl true m true 0
  simpa [Nat.bit, HXor.hXor, Xor.xor] using h

theorem pairHash_length (H2 : Nat → Nat → Nat) (z : Nat) :
    ∀ nodes : List Nat, (pairHash H2 z nodes).length = (nodes.length + 1) / 2
  | [] => by simp [pairHash]
  | [a] => by simp [pairHash]
  | a :: b :: rest => by
      simp [pairHash, pairHash_length H2 z rest]
      omega

theorem buildNextLevel_length (H2 : Nat → Nat → Nat) (z : Nat) (nodes : List Nat)
    (h : nodes ≠ []) : (buildNextLevel H2 nodes z).length = (nodes.length + 1) / 2 := by
  match nodes with
  | [] => exact absurd rfl h
  | a :: rest => simpa [buildNextLevel] using pairHash_length H2 z (a :: rest)

theorem pairHash_getD (H2 : Nat → Nat → Nat) (z : Nat) :
    ∀ (nodes : List Nat) (j : Nat), 2 * j < nodes.length →
      (pairHash H2 z nodes).getD j 0 = H2 (nodes.getD (2 * j) 0) (nodes.getD (2 * j + 1) z)
  | [], j, h => by simp at h
  | [a], j, h => by
      have hj : j = 0 := by simp at h; omega
      subst hj
      simp [pairHash]
  | a :: b :: rest, 0, h => by simp [pairHash]
  | a :: b :: rest, j + 1, h => by
      have hlt : 2 * j < rest.length := by simp at h; omega
      have ih := pairHash_getD H2 z rest j hlt
      have h2 : 2 * (j + 1) = (2 * j + 1) + 1 := by omega
      have h3 : 2 * (j + 1) + 1 = (2 * j + 1 + 1) + 1 := by omega
      simp only [pairHash, h2, h3, List.getD_cons_succ, ih]

theorem buildNextLevel_getD (H2 : Nat → Nat → Nat) (z : Nat) (nodes : List Nat) (j : Nat)
    (h : 2 * j < nodes.length) :
    (buildNextLevel H2 nodes z).getD j 0 = H2 (nodes.getD (2 * j) 0) (nodes.getD (2 * j + 1) z) := by
  match nodes with
  | [] => simp at h
  | a :: rest => exact pairHash_getD H2 z (a :: rest) j h


theorem proofLoop_fold (H2 : Nat → Nat → Nat) :
    ∀ (n : Nat) (nodes : List Nat) (idx level : Nat),
      idx < nodes.length → nodes.length ≤ 2 ^ n →
      foldProofPath H2 (nodes.getD idx 0)
          (proofLoop H2 nodes idx level n).1 (proofLoop H2 nodes idx level n).2
        = (buildLevels H2 nodes level n).headD (zeroHash H2 (level + n))
  | 0, nodes, idx, level, hidx, hlen => by
      match nodes, idx with
      | a :: rest, 0 =>
          have hr : rest = [] := by
            simp only [List.length_cons, pow_zero] at hlen
            exact List.eq_nil_of_length_eq_zero (by omega)
          subst hr
          simp [proofLoop, buildLevels, foldProofPath]
      | a :: rest, j + 1 =>
          exfalso
          simp only [List.length_cons, pow_zero] at hidx hlen
          omega
  | n + 1, nodes, idx, level, hidx, hlen => by
      have hne : nodes ≠ [] := by
        cases nodes with
        | nil => simp at hidx
        | cons a rest => simp
      set z := zeroHash H2 level with hz
      have hlen' : (buildNextLevel H2 nodes z).length = (nodes.length + 1) / 2 :=
        buildNextLevel_length H2 z nodes hne
      have hidx' : idx / 2 < (buildNextLevel H2 nodes z).length := by
        rw [hlen']; omega
      have hcap' : (buildNextLevel H2 nodes z).length ≤ 2 ^ n := by
        rw [hlen']
        have := Nat.pow_succ 2 n
        omega
      have ih := proofLoop_fold H2 n (buildNextLevel H2 nodes z) (idx / 2) (level + 1) hidx' hcap'
      have hparent : (buildNextLevel H2 nodes z).getD (idx / 2) 0
          = H2 (nodes.getD (2 * (idx / 2)) 0) (nodes.getD (2 * (idx / 2) + 1) z) :=
        buildNextLevel_getD H2 z nodes (idx / 2) (by omega)
      have hgoalshape : (buildLevels H2 nodes level (n + 1)).headD (zeroHash H2 (level + (n + 1)))
          = (buildLevels H2 (buildNextLevel H2 nodes z) (level + 1) n).headD
              (zeroHash H2 (level + 1 + n)) := by
        rw [buildLevels, show level + (n + 1) = level + 1 + n from by omega]
      rcases Nat.even_or_odd idx with ⟨m, hm⟩ | ⟨m, hm⟩
      · -- idx even: left child, sibling at idx + 1
        have hxor : idx ^^^ 1 = idx + 1 := by
          have : idx = 2 * m := by omega
          rw [this, xor_one_even]
        have hpar : idx % 2 = 0 := by omega
        have hdiv : 2 * (idx / 2) = idx := by omega
        rw [hgoalshape, ← ih, hparent, hdiv]
        simp only [proofLoop, foldProofPath, hxor, hpar, if_true, ← hz,
          Nat.zero_eq, eq_self_iff_true]
      · -- idx odd: right child, sibling at idx - 1
        have hxor : idx ^^^ 1 = idx - 1 := by
          have : idx = 2 * m + 1 := by omega
          rw [this, xor_one_odd]; omega
        have hpar : idx % 2 = 1 := by omega
        have hdiv : 2 * (idx / 2) = idx - 1 := by omega
        have hdiv1 : 2 * (idx / 2) + 1 = idx := by omega
        have hm1 : idx - 1 < nodes.length := by omega
        have e1 : nodes.getD (idx - 1) z = nodes.getD (idx - 1) 0 := by
          rw [List.getD_eq_getElem nodes z hm1, List.getD_eq_getElem nodes 0 hm1]
        have e2 : nodes.getD idx z = nodes.getD idx 0 := by
          rw [List.getD_eq_getElem nodes z hidx, List.getD_eq_getElem nodes 0 hidx]
        rw [hgoalshape, ← ih, hparent, hdiv1, hdiv, e2]
        simp only [proofLoop, foldProofPath, hxor, hpar, e1, ← hz]
        rw [if_neg (by omega)]


/-- Worked example hash used for concrete witnesses and counterexamples
(any function of two field elements will do; the tree code is parametric in it). -/
def cH2 : Nat → Nat → Nat := fun a b => 2 * a + 3 * b + 1

/-- C9: on an empty leaf list, `computeMerkleRoot` returns `zero[depth]`. -/
theorem buildLevels_singleton_zero (H2 : Nat → Nat → Nat) :
    ∀ (n level : Nat), buildLevels H2 [zeroHash H2 level] level n = [zeroHash H2 (level + n)]
  | 0, level => by simp [buildLevels]
  | n + 1, level => by
      rw [buildLevels]
      have hstep : buildNextLevel H2 [zeroHash H2 level] (zeroHash H2 level)
          = [zeroHash H2 (level + 1)] := by
        simp [buildNextLevel, pairHash, zeroHash]
      rw [hstep, buildLevels_singleton_zero H2 n (level + 1),
        show level + 1 + n = level + (n + 1) from by omega]

/-- **C9** — `computeMerkleRoot(leaves, D)` applied to an empty leaf list returns
`zero[D]`, where `zero[0] = 0` and `zero[i] = Poseidon(zero[i-1], zero[i-1])`. -/
theorem computeMerkleRoot_nil (H2 : Nat → Nat → Nat) (depth : Nat) :
    computeMerkleRoot H2 [] depth = zeroHash H2 depth := by
  have hstart : computeMerkleRoot H2 [] depth
      = (buildLevels H2 [zeroHash H2 0] 0 depth).headD (zeroHash H2 depth) := rfl
  rw [hstart, buildLevels_singleton_zero H2 depth 0]
  simp

/-- **C8 (counterexample)** — the round-trip claim fails without a capacity bound:
with three leaves in a depth-1 tree, index 2 is in range (`2 < 3`) but folding
the returned path yields a value different from `computeMerkleRoot`. -/
theorem merkleProof_roundTrip_cex :
    2 < ([1, 2, 3] : List Nat).length ∧
      computeMerkleProof cH2 [1, 2, 3] 1 2 = some ([0], [0]) ∧
      foldProofPath cH2 (([1, 2, 3] : List Nat).getD 2 0) [0] [0]
        ≠ computeMerkleRoot cH2 [1, 2, 3] 1 := by
  refine ⟨by decide, by decide, by decide⟩

/-- **C8 (amended)** — for every leaf set `L` with `|L| ≤ 2^D` (the tree's
capacity) and every index `i < |L|`, folding the path returned by
`computeMerkleProof(L, D, i)` from the leaf `L[i]` — hashing `(node, sibling)`
on a left child and `(sibling, node)` on a right child — yields exactly
`computeMerkleRoot(L, D)`. -/
theorem merkleProof_roundTrip (H2 : Nat → Nat → Nat) (leaves : List Nat) (depth i : Nat)
    (hi : i < leaves.length) (hcap : leaves.length ≤ 2 ^ depth)
    (es is : List Nat) (hp : computeMerkleProof H2 leaves depth i = some (es, is)) :
    foldProofPath H2 (leaves.getD i 0) es is = computeMerkleRoot H2 leaves depth := by
  unfold computeMerkleProof at hp
  rw [if_pos hi] at hp
  have hps : proofLoop H2 leaves i 0 depth = (es, is) := Option.some.inj hp
  have hes : es = (proofLoop H2 leaves i 0 depth).1 := by rw [hps]
  have his : is = (proofLoop H2 leaves i 0 depth).2 := by rw [hps]
  subst hes his
  have hnonempty : leaves.isEmpty = false := by
    cases leaves with
    | nil => simp at hi
    | cons a rest => rfl
  unfold computeMerkleRoot
  rw [hnonempty]
  simpa using proofLoop_fold H2 depth leaves i 0 hi hcap

/-- Witness for C8: a two-leaf tree of depth 1, index 0. -/
theorem merkleProof_roundTrip_witness :
    foldProofPath cH2 (([5, 6] : List Nat).getD 0 0) [6] [0]
      = computeMerkleRoot cH2 [5, 6] 1 :=
  merkleProof_roundTrip cH2 [5, 6] 1 0 (by decide) (by decide) [6] [0] (by decide)

/-! ## Request hashes — `backend/src/lib/poseidon.ts` and `PrivatePayroll.sol`

Poseidon on three inputs is abstracted as `H3 : Nat → Nat → Nat → Nat`. -/

/-- `addressToField(address) = BigInt(address.toLowerCase())` — addresses are
modelled directly by their 160-bit numeric value, so this is the identity. -/
def addressToField (a : Nat) : Nat := a

/-- `computeRequestHash` from `backend/src/lib/poseidon.ts`:
`Poseidon(Poseidon(root, nullifierHash, recipient), Poseidon(relayer, fee, amount), 1)`. -/
def computeRequestHash (H3 : Nat → Nat → Nat → Nat)
    (root nullifierHash recipient relayer fee amount : Nat) : Nat :=
  H3 (H3 root nullifierHash (addressToField recipient))
    (H3 (addressToField relayer) fee amount) 1

/-- `REQUEST_HASH_DOMAIN` constant of `PrivatePayroll.sol`. -/
def REQUEST_HASH_DOMAIN : Nat := 1

/-- `_computeRequestHash` from `PrivatePayroll.sol`; `uint256(uint160(addr))`
is the numeric value of the 160-bit address, i.e. the address itself in this
model. -/
def contractComputeRequestHash (H3 : Nat → Nat → Nat → Nat)
    (root nullifierHash recipient relayer fee amount : Nat) : Nat :=
  H3 (H3 root nullifierHash recipient) (H3 relayer fee amount) REQUEST_HASH_DOMAIN

/-- The request-hash formula in the words of the specification (C6):
`Poseidon(Poseidon(root, nullifierHash, recipient), Poseidon(relayer, fee, amount), 1)`
with addresses coerced to field elements. -/
def requestHashSpecFormula (H3 : Nat → Nat → Nat → Nat)
    (root nullifierHash recipient relayer fee amount : Nat) : Nat :=
  H3 (H3 root nullifierHash recipient) (H3 relayer fee amount) 1

/-! ## The `PrivatePayroll` contract — `contracts/src/PrivatePayroll.sol`

State-changing entry points are modelled as `Except`-valued functions: a
Solidity `revert` is an `Except.error` and leaves the state unchanged (EVM
transaction semantics).  The Groth16 verifier is an abstract predicate
`vf : List Nat → Nat → Nat → Nat → Bool` on `(proof, root, nullifierHash,
requestHash)` — the contract's `_verifyWithdrawalProof` only repackages the
eight proof words before calling it.  `bytes32` values are modelled as `Nat`
(`bytes32(0)` is `0`). -/

/-- The contract's custom errors. -/
inductive CErr
  | Unauthorized
  | InvalidInputs
  | InvalidProof
  | TransferFailed
  | UnknownRoot
  | RootAlreadyKnown
  | BatchAlreadyProcessed
  | NullifierAlreadyUsed
  | NullifierAlreadyReserved
  | ReservationNotFound
  | AuthorizationMismatch
  | InvalidRequestHash
  deriving DecidableEq, Repr

/-- `struct PendingWithdrawal`; the `exists` flag is rendered by `Option` in
the state. -/
structure PendingWithdrawal where
  requestHash : Nat
  authorizationId : Nat
  createdAt : Nat
  deriving DecidableEq, Repr

/-- The mutable contract storage plus the immutable escrow address. -/
structure ContractState where
  escrow : Nat
  latestRoot : Nat
  rootCount : Nat
  knownRoots : Nat → Bool
  processedBatchIds : Nat → Bool
  nullifierSpent : Nat → Bool
  pendingWithdrawals : Nat → Option PendingWithdrawal

/-- Storage right after the constructor: all mappings empty. -/
def initialContractState (escrow : Nat) : ContractState where
  escrow := escrow
  latestRoot := 0
  rootCount := 0
  knownRoots := fun _ => false
  processedBatchIds := fun _ => false
  nullifierSpent := fun _ => false
  pendingWithdrawals := fun _ => none

/-- `_registerRoot` (internal). -/
def registerRootLogic (s : ContractState) (root batchId noteCount totalAmount : Nat) :
    Except CErr ContractState :=
  if root = 0 ∨ batchId = 0 ∨ noteCount = 0 then .error .InvalidInputs
  else if s.knownRoots root then .error .RootAlreadyKnown
  else if s.processedBatchIds batchId then .error .BatchAlreadyProcessed
  else
    .ok { s with
      knownRoots := fun r => if r = root then true else s.knownRoots r
      processedBatchIds := fun b => if b = batchId then true else s.processedBatchIds b
      latestRoot := root
      rootCount := s.rootCount + 1 }

/-- `registerRoot` (external, `onlyEscrow`); `totalAmount` only feeds the event. -/
def registerRoot (sender : Nat) (s : ContractState) (root batchId noteCount totalAmount : Nat) :
    Except CErr ContractState :=
  if sender ≠ s.escrow then .error .Unauthorized
  else registerRootLogic s root batchId noteCount totalAmount

/-- `depositAndRegisterRoot`; `transferOk` is the boolean returned by the
payment token's `transferFrom`. -/
def depositAndRegisterRoot (transferOk : Bool) (s : ContractState)
    (root batchId noteCount totalAmount : Nat) : Except CErr ContractState :=
  if totalAmount = 0 then .error .InvalidInputs
  else if !transferOk then .error .TransferFailed
  else registerRootLogic s root batchId noteCount totalAmount

/-- `reserveZeroFeeWithdrawal` (`onlyEscrow`); `now` is `block.timestamp`. -/
def reserveZeroFeeWithdrawal (vf : List Nat → Nat → Nat → Nat → Bool)
    (sender : Nat) (s : ContractState) (proof : List Nat)
    (root nullifierHash requestHash authorizationId now : Nat) :
    Except CErr ContractState :=
  if sender ≠ s.escrow then .error .Unauthorized
  else if requestHash = 0 ∨ authorizationId = 0 then .error .InvalidInputs
  else if !s.knownRoots root then .error .UnknownRoot
  else if s.nullifierSpent nullifierHash then .error .NullifierAlreadyUsed
  else if (s.pendingWithdrawals nullifierHash).isSome then .error .NullifierAlreadyReserved
  else if !vf proof root nullifierHash requestHash then .error .InvalidProof
  else
    .ok { s with
      pendingWithdrawals := fun nh =>
        if nh = nullifierHash then
          some ⟨requestHash, authorizationId, now⟩
        else s.pendingWithdrawals nh }

/-- `finalizeZeroFeeWithdrawal` (`onlyEscrow`): consumes the nullifier and
deletes the reservation. -/
def finalizeZeroFeeWithdrawal (sender : Nat) (s : ContractState)
    (nullifierHash authorizationId : Nat) : Except CErr ContractState :=
  if sender ≠ s.escrow then .error .Unauthorized
  else
    match s.pendingWithdrawals nullifierHash with
    | none => .error .ReservationNotFound
    | some pending =>
        if pending.authorizationId ≠ authorizationId then .error .AuthorizationMismatch
        else
          .ok { s with
            nullifierSpent := fun nh =>
              if nh = nullifierHash then true else s.nullifierSpent nh
            pendingWithdrawals := fun nh =>
              if nh = nullifierHash then none else s.pendingWithdrawals nh }

/-- `cancelReservedWithdrawal` (`onlyEscrow`): deletes the reservation without
consuming the nullifier. -/
def cancelReservedWithdrawal (sender : Nat) (s : ContractState)
    (nullifierHash authorizationId reasonHash : Nat) : Except CErr ContractState :=
  if sender ≠ s.escrow then .error .Unauthorized
  else
    match s.pendingWithdrawals nullifierHash with
    | none => .error .ReservationNotFound
    | some pending =>
        if pending.authorizationId ≠ authorizationId then .error .AuthorizationMismatch
        else
          .ok { s with
            pendingWithdrawals := fun nh =>
              if nh = nullifierHash then none else s.pendingWithdrawals nh }

/-- `directWithdraw` (fallback path, any sender); `transferOk` is the result of
`paymentToken.transferFrom(escrow, msg.sender, amount)` — when it is `false`
the whole call reverts, undoing the `nullifierSpent` write. -/
def directWithdraw (vf : List Nat → Nat → Nat → Nat → Bool)
    (H3 : Nat → Nat → Nat → Nat) (transferOk : Bool) (sender : Nat)
    (s : ContractState) (proof : List Nat) (root nullifierHash amount : Nat) :
    Except CErr ContractState :=
  if amount = 0 then .error .InvalidInputs
  else if !s.knownRoots root then .error .UnknownRoot
  else if s.nullifierSpent nullifierHash then .error .NullifierAlreadyUsed
  else if (s.pendingWithdrawals nullifierHash).isSome then .error .NullifierAlreadyReserved
  else if contractComputeRequestHash H3 root nullifierHash sender 0 0 amount = 0 then
    .error .InvalidRequestHash
  else if !vf proof root nullifierHash
      (contractComputeRequestHash H3 root nullifierHash sender 0 0 amount) then
    .error .InvalidProof
  else if !transferOk then .error .TransferFailed
  else
    .ok { s with
      nullifierSpent := fun nh =>
        if nh = nullifierHash then true else s.nullifierSpent nh }

/-- `verifyWithdrawal` (view helper used by the backend before reserving). -/
def verifyWithdrawalView (vf : List Nat → Nat → Nat → Nat → Bool)
    (s : ContractState) (proof : List Nat) (root nullifierHash requestHash : Nat) : Bool :=
  if requestHash = 0 then false
  else if !s.knownRoots root then false
  else if s.nullifierSpent nullifierHash then false
  else if (s.pendingWithdrawals nullifierHash).isSome then false
  else vf proof root nullifierHash requestHash

/-- One successful contract transaction (failed transactions revert and do not
change state, so they need no step). `vf` and `H3` are the immutable verifier
and Poseidon contract addresses. -/
inductive ContractStep (vf : List Nat → Nat → Nat → Nat → Bool)
    (H3 : Nat → Nat → Nat → Nat) : ContractState → ContractState → Prop
  | register (sender root batchId noteCount totalAmount : Nat) (s s' : ContractState) :
      registerRoot sender s root batchId noteCount totalAmount = .ok s' →
      ContractStep vf H3 s s'
  | deposit (transferOk : Bool) (root batchId noteCount totalAmount : Nat)
      (s s' : ContractState) :
      depositAndRegisterRoot transferOk s root batchId noteCount totalAmount = .ok s' →
      ContractStep vf H3 s s'
  | reserve (sender : Nat) (proof : List Nat)
      (root nullifierHash requestHash authorizationId now : Nat) (s s' : ContractState) :
      reserveZeroFeeWithdrawal vf sender s proof root nullifierHash requestHash
        authorizationId now = .ok s' →
      ContractStep vf H3 s s'
  | finalize (sender nullifierHash authorizationId : Nat) (s s' : ContractState) :
      finalizeZeroFeeWithdrawal sender s nullifierHash authorizationId = .ok s' →
      ContractStep vf H3 s s'
  | cancel (sender nullifierHash authorizationId reasonHash : Nat) (s s' : ContractState) :
      cancelReservedWithdrawal sender s nullifierHash authorizationId reasonHash = .ok s' →
      ContractStep vf H3 s s'
  | direct (transferOk : Bool) (sender : Nat) (proof : List Nat)
      (root nullifierHash amount : Nat) (s s' : ContractState) :
      directWithdraw vf H3 transferOk sender s proof root nullifierHash amount = .ok s' →
      ContractStep vf H3 s s'

/-- States reachable from a freshly constructed contract. -/
inductive ContractReachable (vf : List Nat → Nat → Nat → Nat → Bool)
    (H3 : Nat → Nat → Nat → Nat) : ContractState → Prop
  | init (escrow : Nat) : ContractReachable vf H3 (initialContractState escrow)
  | step {s s' : ContractState} : ContractReachable vf H3 s → ContractStep vf H3 s s' →
      ContractReachable vf H3 s'

/-- Zero or more successful transactions. -/
def ContractSteps (vf : List Nat → Nat → Nat → Nat → Bool)
    (H3 : Nat → Nat → Nat → Nat) : ContractState → ContractState → Prop :=
  Relation.ReflTransGen (ContractStep vf H3)

/-- A call that reverts: it produces no post-state. -/
def reverts (x : Except CErr ContractState) : Prop := ∀ s : ContractState, x ≠ .ok s

/-! ### C1 — a nullifier releases funds at most once -/

/-- `nullifierSpent` implies no pending reservation: the key safety invariant
of the reserve/finalize pairing. -/
def SpentNoPending (s : ContractState) : Prop :=
  ∀ nh, s.nullifierSpent nh = true → s.pendingWithdrawals nh = none

theorem registerRootLogic_ok (s s' : ContractState) (root batchId noteCount totalAmount : Nat)
    (h : registerRootLogic s root batchId noteCount totalAmount = .ok s') :
    s'.nullifierSpent = s.nullifierSpent ∧ s'.pendingWithdrawals = s.pendingWithdrawals := by
  unfold registerRootLogic at h
  split at h
  · exact Except.noConfusion h
  split at h
  · exact Except.noConfusion h
  split at h
  · exact Except.noConfusion h
  cases h
  exact ⟨rfl, rfl⟩

theorem reserve_ok (vf : List Nat → Nat → Nat → Nat → Bool) (sender : Nat)
    (s s' : ContractState) (proof : List Nat)
    (root nullifierHash requestHash authorizationId now : Nat)
    (h : reserveZeroFeeWithdrawal vf sender s proof root nullifierHash requestHash
      authorizationId now = .ok s') :
    s.nullifierSpent nullifierHash = false ∧
    s'.nullifierSpent = s.nullifierSpent ∧
    s'.pendingWithdrawals = fun nh =>
      if nh = nullifierHash then some ⟨requestHash, authorizationId, now⟩
      else s.pendingWithdrawals nh := by
  unfold reserveZeroFeeWithdrawal at h
  split at h
  · exact Except.noConfusion h
  split at h
  · exact Except.noConfusion h
  split at h
  · exact Except.noConfusion h
  split at h
  · exact Except.noConfusion h
  next hspent =>
  split at h
  · exact Except.noConfusion h
  split at h
  · exact Except.noConfusion h
  cases h
  refine ⟨by simpa using hspent, rfl, rfl⟩

theorem finalize_ok (sender : Nat) (s s' : ContractState) (nullifierHash authorizationId : Nat)
    (h : finalizeZeroFeeWithdrawal sender s nullifierHash authorizationId = .ok s') :
    s'.nullifierSpent = (fun nh => if nh = nullifierHash then true else s.nullifierSpent nh) ∧
    s'.pendingWithdrawals = fun nh =>
      if nh = nullifierHash then none else s.pendingWithdrawals nh := by
  unfold finalizeZeroFeeWithdrawal at h
  split at h
  · exact Except.noConfusion h
  split at h
  · exact Except.noConfusion h
  next pending hp =>
  split at h
  · exact Except.noConfusion h
  cases h
  exact ⟨rfl, rfl⟩

theorem cancel_ok (sender : Nat) (s s' : ContractState)
    (nullifierHash authorizationId reasonHash : Nat)
    (h : cancelReservedWithdrawal sender s nullifierHash authorizationId reasonHash = .ok s') :
    s'.nullifierSpent = s.nullifierSpent ∧
    s'.pendingWithdrawals = fun nh =>
      if nh = nullifierHash then none else s.pendingWithdrawals nh := by
  unfold cancelReservedWithdrawal at h
  split at h
  · exact Except.noConfusion h
  split at h
  · exact Except.noConfusion h
  next pending hp =>
  split at h
  · exact Except.noConfusion h
  cases h
  exact ⟨rfl, rfl⟩

theorem direct_ok (vf : List Nat → Nat → Nat → Nat → Bool) (H3 : Nat → Nat → Nat → Nat)
    (transferOk : Bool) (sender : Nat) (s s' : ContractState) (proof : List Nat)
    (root nullifierHash amount : Nat)
    (h : directWithdraw vf H3 transferOk sender s proof root nullifierHash amount = .ok s') :
    (s.pendingWithdrawals nullifierHash).isSome = false ∧
    s'.nullifierSpent = (fun nh => if nh = nullifierHash then true else s.nullifierSpent nh) ∧
    s'.pendingWithdrawals = s.pendingWithdrawals := by
  unfold directWithdraw at h
  split at h
  · exact Except.noConfusion h
  split at h
  · exact Except.noConfusion h
  split at h
  · exact Except.noConfusion h
  split at h
  · exact Except.noConfusion h
  next hpend =>
  split at h
  · exact Except.noConfusion h
  split at h
  · exact Except.noConfusion h
  split at h
  · exact Except.noConfusion h
  cases h
  refine ⟨by simpa using hpend, rfl, rfl⟩

theorem step_spent_mono {vf : List Nat → Nat → Nat → Nat → Bool}
    {H3 : Nat → Nat → Nat → Nat} {s s' : ContractState}
    (h : ContractStep vf H3 s s') (nh : Nat) (hs : s.nullifierSpent nh = true) :
    s'.nullifierSpent nh = true := by
  cases h with
  | register sender root batchId noteCount totalAmount s s' heq =>
      unfold registerRoot at heq
      split at heq
      · exact Except.noConfusion heq
      · have := registerRootLogic_ok s s' root batchId noteCount totalAmount heq
        rw [this.1]; exact hs
  | deposit transferOk root batchId noteCount totalAmount s s' heq =>
      unfold depositAndRegisterRoot at heq
      split at heq
      · exact Except.noConfusion heq
      · split at heq
        · exact Except.noConfusion heq
        · have := registerRootLogic_ok s s' root batchId noteCount totalAmount heq
          rw [this.1]; exact hs
  | reserve sender proof root nullifierHash requestHash authorizationId now s s' heq =>
      have := reserve_ok vf sender s s' proof root nullifierHash requestHash
        authorizationId now heq
      rw [this.2.1]; exact hs
  | finalize sender nullifierHash authorizationId s s' heq =>
      have := finalize_ok sender s s' nullifierHash authorizationId heq
      rw [this.1]
      by_cases hc : nh = nullifierHash <;> simp [hc, hs]
  | cancel sender nullifierHash authorizationId reasonHash s s' heq =>
      have := cancel_ok sender s s' nullifierHash authorizationId reasonHash heq
      rw [this.1]; exact hs
  | direct transferOk sender proof root nullifierHash amount s s' heq =>
      have := direct_ok vf H3 transferOk sender s s' proof root nullifierHash amount heq
      rw [this.2.1]
      by_cases hc : nh = nullifierHash <;> simp [hc, hs]

theorem step_preserves_inv {vf : List Nat → Nat → Nat → Nat → Bool}
    {H3 : Nat → Nat → Nat → Nat} {s s' : ContractState}
    (h : ContractStep vf H3 s s') (hinv : SpentNoPending s) : SpentNoPending s' := by
  cases h with
  | register sender root batchId noteCount totalAmount s s' heq =>
      unfold registerRoot at heq
      split at heq
      · exact Except.noConfusion heq
      · have he := registerRootLogic_ok s s' root batchId noteCount totalAmount heq
        intro nh hs'
        rw [he.2]; exact hinv nh (he.1 ▸ hs')
  | deposit transferOk root batchId noteCount totalAmount s s' heq =>
      unfold depositAndRegisterRoot at heq
      split at heq
      · exact Except.noConfusion heq
      · split at heq
        · exact Except.noConfusion heq
        · have he := registerRootLogic_ok s s' root batchId noteCount totalAmount heq
          intro nh hs'
          rw [he.2]; exact hinv nh (he.1 ▸ hs')
  | reserve sender proof root nullifierHash requestHash authorizationId now s s' heq =>
      have he := reserve_ok vf sender s s' proof root nullifierHash requestHash
        authorizationId now heq
      intro nh hs'
      rw [he.2.2]
      have hsnh : s.nullifierSpent nh = true := he.2.1 ▸ hs'
      by_cases hc : nh = nullifierHash
      · exact absurd (hc ▸ hsnh) (by simp [he.1])
      · simp only [if_neg hc]
        exact hinv nh hsnh
  | finalize sender nullifierHash authorizationId s s' heq =>
      have he := finalize_ok sender s s' nullifierHash authorizationId heq
      intro nh hs'
      rw [he.2]
      by_cases hc : nh = nullifierHash
      · simp [hc]
      · simp only [if_neg hc]
        have hsnh : s.nullifierSpent nh = true := by
          have := he.1 ▸ hs'
          simpa [if_neg hc] using this
        exact hinv nh hsnh
  | cancel sender nullifierHash authorizationId reasonHash s s' heq =>
      have he := cancel_ok sender s s' nullifierHash authorizationId reasonHash heq
      intro nh hs'
      rw [he.2]
      by_cases hc : nh = nullifierHash
      · simp [hc]
      · simp only [if_neg hc]
        exact hinv nh (he.1 ▸ hs')
  | direct transferOk sender proof root nullifierHash amount s s' heq =>
      have he := direct_ok vf H3 transferOk sender s s' proof root nullifierHash amount heq
      intro nh hs'
      rw [he.2.2]
      by_cases hc : nh = nullifierHash
      · subst hc
        exact Option.not_isSome_iff_eq_none.mp (by simp [he.1])
      · have hsnh : s.nullifierSpent nh = true := by
          have := he.2.1 ▸ hs'
          simpa [if_neg hc] using this
        exact hinv nh hsnh

theorem reachable_inv {vf : List Nat → Nat → Nat → Nat → Bool}
    {H3 : Nat → Nat → Nat → Nat} {s : ContractState}
    (h : ContractReachable vf H3 s) : SpentNoPending s := by
  induction h with
  | init escrow => intro nh hnh; simp [initialContractState] at hnh
  | step _ hstep ih => exact step_preserves_inv hstep ih

theorem steps_spent_mono {vf : List Nat → Nat → Nat → Nat → Bool}
    {H3 : Nat → Nat → Nat → Nat} {s s' : ContractState}
    (h : ContractSteps vf H3 s s') (nh : Nat) (hs : s.nullifierSpent nh = true) :
    s'.nullifierSpent nh = true := by
  induction h with
  | refl => exact hs
  | tail _ hstep ih => exact step_spent_mono hstep nh ih

theorem steps_reachable {vf : List Nat → Nat → Nat → Nat → Bool}
    {H3 : Nat → Nat → Nat → Nat} {s s' : ContractState}
    (hr : ContractReachable vf H3 s) (h : ContractSteps vf H3 s s') :
    ContractReachable vf H3 s' := by
  induction h with
  | refl => exact hr
  | tail _ hstep ih => exact ContractReachable.step ih hstep

theorem reserve_reverts_of_spent (vf : List Nat → Nat → Nat → Nat → Bool)
    (sender : Nat) (s : ContractState) (proof : List Nat)
    (root nullifierHash requestHash authorizationId now : Nat)
    (h : s.nullifierSpent nullifierHash = true) :
    reverts (reserveZeroFeeWithdrawal vf sender s proof root nullifierHash
      requestHash authorizationId now) := by
  intro t ht
  unfold reserveZeroFeeWithdrawal at ht
  split at ht
  · exact Except.noConfusion ht
  split at ht
  · exact Except.noConfusion ht
  split at ht
  · exact Except.noConfusion ht
  exact Except.noConfusion ht

theorem finalize_reverts_of_no_pending (sender : Nat) (s : ContractState)
    (nullifierHash authorizationId : Nat)
    (h : s.pendingWithdrawals nullifierHash = none) :
    reverts (finalizeZeroFeeWithdrawal sender s nullifierHash authorizationId) := by
  intro t ht
  unfold finalizeZeroFeeWithdrawal at ht
  split at ht
  · exact Except.noConfusion ht
  split at ht
  · exact Except.noConfusion ht
  next pending hp => rw [h] at hp; exact Option.noConfusion hp

theorem cancel_reverts_of_no_pending (sender : Nat) (s : ContractState)
    (nullifierHash authorizationId reasonHash : Nat)
    (h : s.pendingWithdrawals nullifierHash = none) :
    reverts (cancelReservedWithdrawal sender s nullifierHash authorizationId reasonHash) := by
  intro t ht
  unfold cancelReservedWithdrawal at ht
  split at ht
  · exact Except.noConfusion ht
  split at ht
  · exact Except.noConfusion ht
  next pending hp => rw [h] at hp; exact Option.noConfusion hp

theorem direct_reverts_of_spent (vf : List Nat → Nat → Nat → Nat → Bool)
    (H3 : Nat → Nat → Nat → Nat) (transferOk : Bool) (sender : Nat)
    (s : ContractState) (proof : List Nat) (root nullifierHash amount : Nat)
    (h : s.nullifierSpent nullifierHash = true) :
    reverts (directWithdraw vf H3 transferOk sender s proof root nullifierHash amount) := by
  intro t ht
  unfold directWithdraw at ht
  split at ht
  · exact Except.noConfusion ht
  split at ht
  · exact Except.noConfusion ht
  exact Except.noConfusion ht

/-- **C1** — in `PrivatePayroll`, a note's funds are released at most once per
`nullifierHash`, ever: from any reachable contract state, once a first
`finalizeZeroFeeWithdrawal` or `directWithdraw` succeeds for a `nullifierHash`
(setting `nullifierSpent`), then after any further sequence of successful
transactions every `reserveZeroFeeWithdrawal`, `finalizeZeroFeeWithdrawal`,
`cancelReservedWithdrawal`, or `directWithdraw` for that `nullifierHash`
reverts — in particular a second finalize or cancel on the same
`(nullifierHash, authorizationId)` is rejected and never double-pays. -/
theorem nullifier_released_at_most_once
    (vf : List Nat → Nat → Nat → Nat → Bool) (H3 : Nat → Nat → Nat → Nat)
    (s s' s'' : ContractState) (nh : Nat)
    (hreach : ContractReachable vf H3 s)
    (hfirst :
      (∃ sender authorizationId,
        finalizeZeroFeeWithdrawal sender s nh authorizationId = .ok s') ∨
      (∃ transferOk sender proof root amount,
        directWithdraw vf H3 transferOk sender s proof root nh amount = .ok s'))
    (hlater : ContractSteps vf H3 s' s'') :
    s''.nullifierSpent nh = true ∧
    (∀ sender proof root requestHash authorizationId now,
      reverts (reserveZeroFeeWithdrawal vf sender s'' proof root nh
        requestHash authorizationId now)) ∧
    (∀ sender authorizationId,
      reverts (finalizeZeroFeeWithdrawal sender s'' nh authorizationId)) ∧
    (∀ sender authorizationId reasonHash,
      reverts (cancelReservedWithdrawal sender s'' nh authorizationId reasonHash)) ∧
    (∀ transferOk sender proof root amount,
      reverts (directWithdraw vf H3 transferOk sender s'' proof root nh amount)) := by
  have hstep : ContractStep vf H3 s s' := by
    rcases hfirst with ⟨sender, authorizationId, hke⟩ | ⟨tOk, sender, proof, root, amount, hke⟩
    · exact ContractStep.finalize sender nh authorizationId s s' hke
    · exact ContractStep.direct tOk sender proof root nh amount s s' hke
  have hspent' : s'.nullifierSpent nh = true := by
    rcases hfirst with ⟨sender, authorizationId, hke⟩ | ⟨tOk, sender, proof, root, amount, hke⟩
    · have := finalize_ok sender s s' nh authorizationId hke
      rw [this.1]; simp
    · have := direct_ok vf H3 tOk sender s s' proof root nh amount hke
      rw [this.2.1]; simp
  have hreach'' : ContractReachable vf H3 s'' :=
    steps_reachable (ContractReachable.step hreach hstep) hlater
  have hspent'' : s''.nullifierSpent nh = true := steps_spent_mono hlater nh hspent'
  have hpend'' : s''.pendingWithdrawals nh = none := reachable_inv hreach'' nh hspent''
  refine ⟨hspent'', ?_, ?_, ?_, ?_⟩
  · intro sender proof root requestHash authorizationId now
    exact reserve_reverts_of_spent vf sender s'' proof root nh requestHash
      authorizationId now hspent''
  · intro sender authorizationId
    exact finalize_reverts_of_no_pending sender s'' nh authorizationId hpend''
  · intro sender authorizationId reasonHash
    exact cancel_reverts_of_no_pending sender s'' nh authorizationId reasonHash hpend''
  · intro transferOk sender proof root amount
    exact direct_reverts_of_spent vf H3 transferOk sender s'' proof root nh amount hspent''

/-- Hash and verifier instances for the concrete C1 scenario. -/
def cH3 : Nat → Nat → Nat → Nat := fun a b c => a + b + c + 1

def vfTrue : List Nat → Nat → Nat → Nat → Bool := fun _ _ _ _ => true

/-- Concrete chain: state after `registerRoot(5, 7, 1, 100)` from escrow `1`. -/
def witS1 : ContractState where
  escrow := 1
  latestRoot := 5
  rootCount := 1
  knownRoots := fun r => if r = 5 then true else false
  processedBatchIds := fun b => if b = 7 then true else false
  nullifierSpent := fun _ => false
  pendingWithdrawals := fun _ => none

/-- … then `reserveZeroFeeWithdrawal` for nullifier 11, request hash 13,
authorization 17. -/
def witS2 : ContractState where
  escrow := 1
  latestRoot := 5
  rootCount := 1
  knownRoots := fun r => if r = 5 then true else false
  processedBatchIds := fun b => if b = 7 then true else false
  nullifierSpent := fun _ => false
  pendingWithdrawals := fun nh => if nh = 11 then some ⟨13, 17, 0⟩ else none

/-- … then `finalizeZeroFeeWithdrawal(11, 17)`. -/
def witS3 : ContractState where
  escrow := 1
  latestRoot := 5
  rootCount := 1
  knownRoots := fun r => if r = 5 then true else false
  processedBatchIds := fun b => if b = 7 then true else false
  nullifierSpent := fun nh => if nh = 11 then true else false
  pendingWithdrawals := fun nh => if nh = 11 then none
    else if nh = 11 then some ⟨13, 17, 0⟩ else none

theorem witS2_reachable : ContractReachable vfTrue cH3 witS2 :=
  ContractReachable.step
    (ContractReachable.step (ContractReachable.init 1)
      (ContractStep.register 1 5 7 1 100 (initialContractState 1) witS1 rfl))
    (ContractStep.reserve 1 [] 5 11 13 17 0 witS1 witS2 rfl)

/-- Witness for C1: after finalizing nullifier 11 at a concretely reachable
state, a second finalize and a cancel on the same pair, a re-reservation, and a
direct withdrawal all revert. -/
theorem nullifier_released_at_most_once_witness :
    witS3.nullifierSpent 11 = true ∧
    reverts (finalizeZeroFeeWithdrawal 1 witS3 11 17) ∧
    reverts (cancelReservedWithdrawal 1 witS3 11 17 99) ∧
    reverts (reserveZeroFeeWithdrawal vfTrue 1 witS3 [] 5 11 13 17 0) ∧
    reverts (directWithdraw vfTrue cH3 true 2 witS3 [] 5 11 4000) := by
  have h := nullifier_released_at_most_once vfTrue cH3 witS2 witS3 witS3 11
    witS2_reachable (Or.inl ⟨1, 17, rfl⟩) Relation.ReflTransGen.refl
  exact ⟨h.1, h.2.2.1 1 17, h.2.2.2.1 1 17 99, h.2.1 1 [] 5 13 17 0, h.2.2.2.2 true 2 [] 5 4000⟩


/-! ## The backend store and the withdrawal coordinator —
`backend/src/routes/claim.ts`, schema from the migration DDL.

`TIMESTAMPTZ` columns (`created_at`, `updated_at`, `spent_at`) carry no logic
in the embedded routes and are omitted.  `bytes32` values stored as hex text
(`authorization_hash`) are modelled as `Nat` (`asBytes32` is the identity on
values that are already canonical 32-byte hex, which is what the route
stores). -/

/-- A row of the `batches` table. -/
structure BatchRow where
  batchId : String
  employerAddress : Nat
  totalAmount : Nat
  noteCount : Nat
  root : Nat
  cumulativeLeafCount : Nat
  fundingAuthorizationId : Option String
  fundingTxHash : Option String
  registerTxHash : Option String
  status : String
  deriving DecidableEq, Repr

/-- A row of the `notes` table.  The `BIGSERIAL` primary key `id` is modelled
as an explicit `Nat` field. -/
structure NoteRow where
  id : Nat
  batchId : String
  recipient : Nat
  amount : Nat
  secret : Nat
  nullifier : Nat
  nullifierHash : Nat
  commitment : Nat
  leafIndex : Nat
  root : Nat
  pathElements : List Nat
  pathIndices : List Nat
  claimTokenId : String
  spent : Bool
  deriving DecidableEq, Repr

/-- `status` column of `claims`. -/
inductive ClaimStatus
  | submitted
  | confirmed
  | failed
  deriving DecidableEq, Repr

/-- A row of the `claims` table. -/
structure ClaimRow where
  claimId : String
  noteId : Nat
  nullifierHash : Nat
  requestHash : Nat
  authorizationId : Option String
  authorizationHash : Option Nat
  userIp : Option String
  status : ClaimStatus
  relayerTxHash : Option String
  finalizeTxHash : Option String
  error : Option String
  deriving DecidableEq, Repr

/-- The persisted store. -/
structure DB where
  batches : List BatchRow
  notes : List NoteRow
  claims : List ClaimRow
  deriving DecidableEq, Repr

/-- `SELECT ... FROM claims WHERE claim_id = $1 LIMIT 1`. -/
def findClaim (db : DB) (claimId : String) : Option ClaimRow :=
  db.claims.find? (fun r => r.claimId == claimId)

/-- `SELECT ... FROM notes WHERE claim_token_id = $1 LIMIT 1`
(`getNoteByClaimTokenId`). -/
def findNoteByTokenId (db : DB) (claimTokenId : String) : Option NoteRow :=
  db.notes.find? (fun n => n.claimTokenId == claimTokenId)

/-- `UPDATE notes SET spent = true ... WHERE id = $1`. -/
def updateNoteSpent (db : DB) (noteId : Nat) : DB :=
  { db with notes := db.notes.map fun n =>
      if n.id == noteId then { n with spent := true } else n }

/-- `UPDATE claims SET status = 'confirmed', relayer_tx_hash = $2,
finalize_tx_hash = $3 ... WHERE claim_id = $1`. -/
def updateClaimConfirmed (db : DB) (claimId : String)
    (relayerTx : Option String) (finalizeTx : String) : DB :=
  { db with claims := db.claims.map fun r =>
      if r.claimId == claimId then
        { r with status := .confirmed, relayerTxHash := relayerTx,
                 finalizeTxHash := some finalizeTx }
      else r }

/-- `UPDATE claims SET status = 'failed', error = $2 ... WHERE claim_id = $1`. -/
def updateClaimFailed (db : DB) (claimId : String) (err : String) : DB :=
  { db with claims := db.claims.map fun r =>
      if r.claimId == claimId then { r with status := .failed, error := some err }
      else r }

/-- External calls made by the coordinator, in order of issue.  Reason strings
are recorded pre-hash together with the reason-hash function applied
(`toReasonHash = keccak256 ∘ stringToHex` is abstracted as `RH`). -/
inductive ExtCall
  | waitForConfirmation (authorizationId : String)
  | finalizeZeroFee (nullifierHash : Nat) (authorizationHash : Nat)
  | cancelReserved (nullifierHash : Nat) (authorizationHash : Nat) (reasonHash : Nat)
  | computeRequestHashOnChain
  | prove
  | verifyOnChain
  | reserveZeroFee (nullifierHash : Nat) (authorizationHash : Nat)
  | submitTransfer
  deriving DecidableEq, Repr

/-- `waitForConfirmation`'s relayer status report. -/
structure RelayerWait where
  status : String
  txHash : Option String
  error : Option String
  deriving DecidableEq, Repr

/-- Outcomes of the three external calls `processClaimConfirmation` makes; an
`Except.error` is a thrown exception (network fault, revert, timeout …). -/
structure ConfirmOracle where
  wait : Except String RelayerWait
  finalizeTx : Except String String
  cancelRes : Except String String
  deriving Repr

/-- `processClaimConfirmation(claimId, userIp)` from `claim.ts`: guard checks,
then poll the relayer; on `confirmed` finalize on-chain, mark the note spent
and the claim confirmed; on relayer failure or any thrown exception, cancel the
reservation (errors of the cancel itself are swallowed) and mark the claim
failed with the error text.  `RH` is the reason-hash function. -/
def processClaimConfirmation (RH : String → Nat) (o : ConfirmOracle)
    (db : DB) (claimId : String) : DB × List ExtCall :=
  match findClaim db claimId with
  | none => (db, [])
  | some claimRow =>
    if claimRow.status ≠ .submitted then (db, [])
    else
      match claimRow.authorizationId, claimRow.authorizationHash with
      | some authorizationId, some authorizationHash =>
        let nh := claimRow.nullifierHash
        match o.wait with
        | .ok relayerStatus =>
          if relayerStatus.status == "confirmed" then
            match o.finalizeTx with
            | .ok finalizeTx =>
                (updateClaimConfirmed (updateNoteSpent db claimRow.noteId) claimId
                   relayerStatus.txHash finalizeTx,
                 [.waitForConfirmation authorizationId,
                  .finalizeZeroFee nh authorizationHash])
            | .error e =>
                (updateClaimFailed db claimId e,
                 [.waitForConfirmation authorizationId,
                  .finalizeZeroFee nh authorizationHash,
                  .cancelReserved nh authorizationHash (RH e)])
          else
            let msg := relayerStatus.error.getD "Relayer transfer failed"
            match o.cancelRes with
            | .ok _ =>
                (updateClaimFailed db claimId msg,
                 [.waitForConfirmation authorizationId,
                  .cancelReserved nh authorizationHash (RH msg)])
            | .error cancelErr =>
                (updateClaimFailed db claimId cancelErr,
                 [.waitForConfirmation authorizationId,
                  .cancelReserved nh authorizationHash (RH msg),
                  .cancelReserved nh authorizationHash (RH cancelErr)])
        | .error e =>
            (updateClaimFailed db claimId e,
             [.waitForConfirmation authorizationId,
              .cancelReserved nh authorizationHash (RH e)])
      | _, _ => (db, [])


/-! ### Lemmas about the store updates -/

theorem find?_map_claimUpdate (cid : String) (g : ClaimRow → ClaimRow)
    (hg : ∀ r, (g r).claimId = r.claimId) :
    ∀ l : List ClaimRow,
      (l.map (fun r => if r.claimId == cid then g r else r)).find?
          (fun r => r.claimId == cid)
        = (l.find? (fun r => r.claimId == cid)).map g
  | [] => rfl
  | a :: l => by
      by_cases h : (a.claimId == cid) = true
      · have hga : ((g a).claimId == cid) = true := by
          rw [hg a]; exact h
        rw [List.map_cons, if_pos h,
          @List.find?_cons_of_pos _ (fun r => r.claimId == cid) (g a) _ hga,
          @List.find?_cons_of_pos _ (fun r => r.claimId == cid) a l h]
        rfl
      · rw [List.map_cons, if_neg h,
          @List.find?_cons_of_neg _ (fun r => r.claimId == cid) a _ h,
          @List.find?_cons_of_neg _ (fun r => r.claimId == cid) a l h]
        exact find?_map_claimUpdate cid g hg l

theorem findClaim_updateClaimFailed (db : DB) (cid : String) (e : String) :
    findClaim (updateClaimFailed db cid e) cid
      = (findClaim db cid).map (fun r => { r with status := .failed, error := some e }) := by
  unfold findClaim updateClaimFailed
  exact find?_map_claimUpdate cid
    (fun r => { r with status := .failed, error := some e }) (fun _ => rfl) db.claims

theorem findClaim_updateClaimConfirmed (db : DB) (cid : String)
    (relayerTx : Option String) (finalizeTx : String) :
    findClaim (updateClaimConfirmed db cid relayerTx finalizeTx) cid
      = (findClaim db cid).map (fun r =>
          { r with status := .confirmed, relayerTxHash := relayerTx,
                   finalizeTxHash := some finalizeTx }) := by
  unfold findClaim updateClaimConfirmed
  exact find?_map_claimUpdate cid
    (fun r =>
      { r with
        status := .confirmed
        relayerTxHash := relayerTx
        finalizeTxHash := some finalizeTx })
    (fun _ => rfl) db.claims

theorem updateNoteSpent_claims (db : DB) (noteId : Nat) :
    (updateNoteSpent db noteId).claims = db.claims := rfl

theorem updateClaimFailed_notes (db : DB) (cid e : String) :
    (updateClaimFailed db cid e).notes = db.notes := rfl

theorem updateClaimConfirmed_notes (db : DB) (cid : String)
    (relayerTx : Option String) (finalizeTx : String) :
    (updateClaimConfirmed db cid relayerTx finalizeTx).notes = db.notes := rfl

theorem updateNoteSpent_spent (db : DB) (noteId : Nat) :
    ∀ n ∈ (updateNoteSpent db noteId).notes, n.id = noteId → n.spent = true := by
  intro n hn hid
  unfold updateNoteSpent at hn
  simp only [List.mem_map] at hn
  obtain ⟨m, _, hm⟩ := hn
  by_cases hc : m.id == noteId
  · rw [if_pos hc] at hm
    rw [← hm]
  · rw [if_neg hc] at hm
    subst hm
    exact absurd (by simpa using hid) (by simpa using hc)

/-- The full case dichotomy of `processClaimConfirmation` on a live
(`submitted`, fully authorized) claim row; shared by several claims. -/
theorem confirm_outcomes (RH : String → Nat) (o : ConfirmOracle) (db : DB)
    (claimId : String) (row : ClaimRow) (aid : String) (ah : Nat)
    (hrow : findClaim db claimId = some row)
    (hsub : row.status = .submitted)
    (haid : row.authorizationId = some aid)
    (hah : row.authorizationHash = some ah) :
    (∃ st ftx, o.wait = .ok st ∧ st.status = "confirmed" ∧ o.finalizeTx = .ok ftx ∧
      (processClaimConfirmation RH o db claimId).2
        = [.waitForConfirmation aid, .finalizeZeroFee row.nullifierHash ah] ∧
      (∀ n ∈ (processClaimConfirmation RH o db claimId).1.notes,
        n.id = row.noteId → n.spent = true) ∧
      findClaim (processClaimConfirmation RH o db claimId).1 claimId
        = some { row with status := .confirmed, relayerTxHash := st.txHash,
                          finalizeTxHash := some ftx }) ∨
    (∃ msg,
      ((∃ e, o.wait = .error e) ∨
       (∃ st, o.wait = .ok st ∧ st.status ≠ "confirmed") ∨
       (∃ st e, o.wait = .ok st ∧ st.status = "confirmed" ∧ o.finalizeTx = .error e)) ∧
      (∃ r, ExtCall.cancelReserved row.nullifierHash ah r
        ∈ (processClaimConfirmation RH o db claimId).2) ∧
      (processClaimConfirmation RH o db claimId).1.notes = db.notes ∧
      findClaim (processClaimConfirmation RH o db claimId).1 claimId
        = some { row with status := .failed, error := some msg }) := by
  unfold processClaimConfirmation
  rw [hrow]
  simp only [hsub, haid, hah]
  rw [if_neg (by simp)]
  match hwait : o.wait with
  | .error e =>
      refine Or.inr ⟨e, Or.inl ⟨e, rfl⟩, ⟨RH e, by simp⟩, rfl, ?_⟩
      rw [findClaim_updateClaimFailed, hrow]
      simp [haid, hah]
  | .ok st =>
      dsimp only
      by_cases hst : (st.status == "confirmed") = true
      · rw [if_pos hst]
        match hfin : o.finalizeTx with
        | .ok ftx =>
            refine Or.inl ⟨st, ftx, rfl, by simpa using hst, rfl, rfl, ?_, ?_⟩
            · intro n hn hid
              rw [updateClaimConfirmed_notes] at hn
              exact updateNoteSpent_spent db row.noteId n hn hid
            · rw [findClaim_updateClaimConfirmed]
              unfold findClaim
              rw [updateNoteSpent_claims]
              have : db.claims.find? (fun r => r.claimId == claimId) = some row := hrow
              rw [this]
              simp [haid, hah]
        | .error e =>
            refine Or.inr ⟨e, Or.inr (Or.inr ⟨st, e, rfl, by simpa using hst, rfl⟩),
              ⟨RH e, by simp⟩, rfl, ?_⟩
            rw [findClaim_updateClaimFailed, hrow]
            simp [haid, hah]
      · rw [if_neg hst]
        match hcan : o.cancelRes with
        | .ok tx =>
            refine Or.inr ⟨st.error.getD "Relayer transfer failed",
              Or.inr (Or.inl ⟨st, rfl, by simpa using hst⟩),
              ⟨RH (st.error.getD "Relayer transfer failed"), by simp⟩, rfl, ?_⟩
            rw [findClaim_updateClaimFailed, hrow]
            simp [haid, hah]
        | .error cancelErr =>
            refine Or.inr ⟨cancelErr,
              Or.inr (Or.inl ⟨st, rfl, by simpa using hst⟩),
              ⟨RH (st.error.getD "Relayer transfer failed"), by simp⟩, rfl, ?_⟩
            rw [findClaim_updateClaimFailed, hrow]
            simp [haid, hah]


/-- Terminal-status corollary shared by the recovery arguments: a live claim
row always ends `confirmed` or `failed` after one complete
`processClaimConfirmation` run, whatever the oracle outcomes. -/
theorem confirm_terminal (RH : String → Nat) (o : ConfirmOracle) (db : DB)
    (claimId : String) (row : ClaimRow) (aid : String) (ah : Nat)
    (hrow : findClaim db claimId = some row)
    (hsub : row.status = .submitted)
    (haid : row.authorizationId = some aid)
    (hah : row.authorizationHash = some ah) :
    (findClaim (processClaimConfirmation RH o db claimId).1 claimId).map ClaimRow.status
        = some .confirmed ∨
    (findClaim (processClaimConfirmation RH o db claimId).1 claimId).map ClaimRow.status
        = some .failed := by
  rcases confirm_outcomes RH o db claimId row aid ah hrow hsub haid hah with
    ⟨st, ftx, _, _, _, _, _, hfind⟩ | ⟨msg, _, _, _, hfind⟩
  · left
    rw [hfind]
    rfl
  · right
    rw [hfind]
    rfl

/-- **C5** — for every claim row with status `submitted` and non-null
authorization fields, `processClaimConfirmation` ends in exactly one of two
outcomes.  Relayer reports `confirmed` and the finalize call succeeds: the
on-chain finalize is issued, the note's `spent` flag is set, and the claim row
becomes `confirmed` recording the relayer and finalize transaction hashes.
Relayer reports failure, polling throws, or finalize throws: a
cancel-reservation call is issued, the claim row becomes `failed` with the
error text, and the notes table — in particular the note's `spent` flag — is
untouched. -/
theorem processClaimConfirmation_two_outcomes (RH : String → Nat)
    (o : ConfirmOracle) (db : DB) (claimId : String) (row : ClaimRow)
    (aid : String) (ah : Nat)
    (hrow : findClaim db claimId = some row)
    (hsub : row.status = .submitted)
    (haid : row.authorizationId = some aid)
    (hah : row.authorizationHash = some ah) :
    (∃ st ftx, o.wait = .ok st ∧ st.status = "confirmed" ∧ o.finalizeTx = .ok ftx ∧
      (processClaimConfirmation RH o db claimId).2
        = [.waitForConfirmation aid, .finalizeZeroFee row.nullifierHash ah] ∧
      (∀ n ∈ (processClaimConfirmation RH o db claimId).1.notes,
        n.id = row.noteId → n.spent = true) ∧
      findClaim (processClaimConfirmation RH o db claimId).1 claimId
        = some { row with status := .confirmed, relayerTxHash := st.txHash,
                          finalizeTxHash := some ftx }) ∨
    (∃ msg,
      ((∃ e, o.wait = .error e) ∨
       (∃ st, o.wait = .ok st ∧ st.status ≠ "confirmed") ∨
       (∃ st e, o.wait = .ok st ∧ st.status = "confirmed" ∧ o.finalizeTx = .error e)) ∧
      (∃ r, ExtCall.cancelReserved row.nullifierHash ah r
        ∈ (processClaimConfirmation RH o db claimId).2) ∧
      (processClaimConfirmation RH o db claimId).1.notes = db.notes ∧
      findClaim (processClaimConfirmation RH o db claimId).1 claimId
        = some { row with status := .failed, error := some msg }) :=
  confirm_outcomes RH o db claimId row aid ah hrow hsub haid hah

/-! ### Concrete store fixtures for witnesses -/

/-- Stand-in reason-hash function for concrete runs. -/
def witRH : String → Nat := fun s => s.length

def witNote : NoteRow where
  id := 1
  batchId := "b1"
  recipient := 21
  amount := 4000
  secret := 31
  nullifier := 41
  nullifierHash := 11
  commitment := 51
  leafIndex := 0
  root := 5
  pathElements := []
  pathIndices := []
  claimTokenId := "tok1"
  spent := false

def witClaimRow : ClaimRow :=
  ⟨"c1", 1, 11, 13, some "a1", some 17, some "ip", .submitted, none, none, none⟩

def witDB : DB := ⟨[], [witNote], [witClaimRow]⟩

/-- Oracle where the relayer confirms and the finalize call succeeds. -/
def witOracleOk : ConfirmOracle :=
  ⟨.ok ⟨"confirmed", some "t1", none⟩, .ok "f1", .ok "x"⟩

/-- Witness for C5 at a concrete live claim row and an all-success oracle. -/
theorem processClaimConfirmation_two_outcomes_witness :
    (∃ st ftx, witOracleOk.wait = .ok st ∧ st.status = "confirmed" ∧
      witOracleOk.finalizeTx = .ok ftx ∧
      (processClaimConfirmation witRH witOracleOk witDB "c1").2
        = [.waitForConfirmation "a1", .finalizeZeroFee witClaimRow.nullifierHash 17] ∧
      (∀ n ∈ (processClaimConfirmation witRH witOracleOk witDB "c1").1.notes,
        n.id = witClaimRow.noteId → n.spent = true) ∧
      findClaim (processClaimConfirmation witRH witOracleOk witDB "c1").1 "c1"
        = some { witClaimRow with status := .confirmed, relayerTxHash := st.txHash,
                                  finalizeTxHash := some ftx }) ∨
    (∃ msg,
      ((∃ e, witOracleOk.wait = .error e) ∨
       (∃ st, witOracleOk.wait = .ok st ∧ st.status ≠ "confirmed") ∨
       (∃ st e, witOracleOk.wait = .ok st ∧ st.status = "confirmed" ∧
         witOracleOk.finalizeTx = .error e)) ∧
      (∃ r, ExtCall.cancelReserved witClaimRow.nullifierHash 17 r
        ∈ (processClaimConfirmation witRH witOracleOk witDB "c1").2) ∧
      (processClaimConfirmation witRH witOracleOk witDB "c1").1.notes = witDB.notes ∧
      findClaim (processClaimConfirmation witRH witOracleOk witDB "c1").1 "c1"
        = some { witClaimRow with status := .failed, error := some msg }) :=
  processClaimConfirmation_two_outcomes witRH witOracleOk witDB "c1" witClaimRow
    "a1" 17 rfl rfl rfl rfl

/-- Guard no-op lemma shared by C10 and the status-monotonicity argument. -/
theorem confirm_noop_of_guard (RH : String → Nat) (o : ConfirmOracle)
    (db : DB) (claimId : String)
    (h : findClaim db claimId = none ∨
      ∃ row, findClaim db claimId = some row ∧
        (row.status ≠ .submitted ∨ row.authorizationId = none ∨
         row.authorizationHash = none)) :
    processClaimConfirmation RH o db claimId = (db, []) := by
  unfold processClaimConfirmation
  rcases h with hnone | ⟨row, hrow, hcase⟩
  · rw [hnone]
  · rw [hrow]
    dsimp only
    rcases hcase with hst | hid | hhash
    · rw [if_pos hst]
    · by_cases hst : row.status = ClaimStatus.submitted
      · rw [if_neg (not_not_intro hst), hid]
      · rw [if_pos hst]
    · by_cases hst : row.status = ClaimStatus.submitted
      · rw [if_neg (not_not_intro hst), hhash]
        match hh : row.authorizationId with
        | none => rfl
        | some aid => rfl
      · rw [if_pos hst]

/-- **C10** — `processClaimConfirmation(claimId, userIp)` performs no store
write and makes no relayer or on-chain call — returning immediately with the
state unchanged — whenever the claim row does not exist, its status is not
`submitted`, or its `authorization_id` or `authorization_hash` is null. -/
theorem processClaimConfirmation_frame (RH : String → Nat) (o : ConfirmOracle)
    (db : DB) (claimId : String)
    (h : findClaim db claimId = none ∨
      ∃ row, findClaim db claimId = some row ∧
        (row.status ≠ .submitted ∨ row.authorizationId = none ∨
         row.authorizationHash = none)) :
    processClaimConfirmation RH o db claimId = (db, []) :=
  confirm_noop_of_guard RH o db claimId h

/-- A store whose only claim row is already `failed`. -/
def witFailedRow : ClaimRow :=
  ⟨"c1", 1, 11, 13, some "a1", some 17, some "ip", .failed, none, none, some "boom"⟩

def witDBFailed : DB := ⟨[], [witNote], [witFailedRow]⟩

/-- Witness for C10: on a `failed` row the coordinator is a no-op. -/
theorem processClaimConfirmation_frame_witness :
    processClaimConfirmation witRH witOracleOk witDBFailed "c1" = (witDBFailed, []) :=
  processClaimConfirmation_frame witRH witOracleOk witDBFailed "c1"
    (Or.inr ⟨witFailedRow, rfl, Or.inl (by decide)⟩)


/-! ## The zero-fee claim handler — `claim.post("/zero-fee")` in `claim.ts`

The handler couples the store with the on-chain contract: the thin wrappers
`reserveZeroFeeWithdrawalOnChain`, `cancelReservedWithdrawalOnChain`,
`verifyWithdrawalOnChain` and `computeRequestHashOnChain` submit to / read from
the deployed `PrivatePayroll` contract, so they are interpreted against the
embedded contract model (sent from the escrow account).  `decodeClaimToken`
(AES-GCM), the Groth16 prover (`generateWithdrawProof`), `signAuthorization`
(EIP-712) and the relayer (`submitZeroFeeTransfer`) are external oracles.
`H3` is the backend's circomlibjs Poseidon, `H3c` the chain's PoseidonT4 —
distinct parameters precisely because the route cross-checks them. -/

/-- Persistent state visible across a process crash: the Postgres store plus
the on-chain contract storage. -/
structure World where
  db : DB
  chain : ContractState

/-- Route configuration: `RELAYER_PAYOUT_ADDRESS` and `WITHDRAW_FEE`. -/
structure ZeroFeeEnv where
  relayerPayout : Nat
  withdrawFee : Nat

/-- Oracle outcomes of the external calls the handler makes, in program order.
`decodeToken` yields `(claimTokenId, recipient)`; `proveRes` yields
`(proof, publicSignals)`; `authNonceHash` is `asBytes32(authorization.nonce)`;
`submitRes` yields the relayer `authorizationId`. -/
structure ZeroFeeOracle where
  decodeToken : Except String (String × Nat)
  proveRes : Except String (List Nat × List Nat)
  authNonceHash : Nat
  submitRes : Except String String
  newClaimId : String
  userIp : String
  now : Nat

/-- The handler's HTTP response, reduced to status code and error string. -/
inductive ZFResponse
  | ok (claimId : String) (authorizationId : String)
  | err (code : Nat) (msg : String)
  deriving DecidableEq, Repr

/-- Result of one handler run: final persistent state, external-call trace,
response, and the intermediate persistent states (snapshots) after each
persistent write — crash points between step 7 (reserve) and step 10. -/
structure ZFResult where
  world : World
  calls : List ExtCall
  response : ZFResponse
  snapshots : List World

/-- `INSERT INTO claims ... ON CONFLICT (nullifier_hash) DO UPDATE SET ...
RETURNING claim_id`: a conflicting row keeps its primary key but has its
authorization fields replaced and its status reset to `submitted`, with
transaction hashes and error cleared; the returned `claim_id` is the stored
row's. -/
def upsertClaim (db : DB) (row : ClaimRow) : DB × String :=
  match db.claims.find? (fun r => r.nullifierHash == row.nullifierHash) with
  | some existing =>
      ({ db with claims := db.claims.map fun r =>
          if r.nullifierHash == row.nullifierHash then
            { r with
              noteId := row.noteId
              requestHash := row.requestHash
              authorizationId := row.authorizationId
              authorizationHash := row.authorizationHash
              userIp := row.userIp
              status := .submitted
              relayerTxHash := none
              finalizeTxHash := none
              error := none }
          else r },
       existing.claimId)
  | none => ({ db with claims := db.claims ++ [row] }, row.claimId)

/-- The `POST /api/claim/zero-fee` handler body (from the token decode through
the claims upsert; the detached `processClaimConfirmation` task it spawns is
not part of the request's own effects). -/
def zeroFeeClaim (H3 H3c : Nat → Nat → Nat → Nat)
    (vf : List Nat → Nat → Nat → Nat → Bool) (RH : String → Nat)
    (env : ZeroFeeEnv) (o : ZeroFeeOracle) (recipient : Nat) (w : World) :
    ZFResult :=
  match o.decodeToken with
  | .error _ => ⟨w, [], .err 500 "Claim failed", []⟩
  | .ok (claimTokenId, decodedRecipient) =>
    if decodedRecipient ≠ recipient then
      ⟨w, [], .err 403 "Claim token recipient mismatch", []⟩
    else
      match findNoteByTokenId w.db claimTokenId with
      | none => ⟨w, [], .err 404 "Claim not found", []⟩
      | some note =>
        if note.spent then ⟨w, [], .err 400 "Already claimed", []⟩
        else if note.recipient ≠ recipient then ⟨w, [], .err 403 "Wallet mismatch", []⟩
        else if env.withdrawFee > note.amount then
          ⟨w, [], .err 500 "Configured withdraw fee exceeds amount", []⟩
        else
          if contractComputeRequestHash H3c note.root note.nullifierHash recipient
              env.relayerPayout env.withdrawFee note.amount
            ≠ computeRequestHash H3 note.root note.nullifierHash recipient
                env.relayerPayout env.withdrawFee note.amount then
            ⟨w, [.computeRequestHashOnChain], .err 500 "Request hash mismatch with contract", []⟩
          else
            match o.proveRes with
            | .error _ =>
                ⟨w, [.computeRequestHashOnChain, .prove], .err 500 "Claim failed", []⟩
            | .ok (proof, publicSignals) =>
              if publicSignals.length < 3 ∨
                  publicSignals.getD 0 0 ≠ note.root ∨
                  publicSignals.getD 1 0 ≠ note.nullifierHash ∨
                  publicSignals.getD 2 0
                    ≠ computeRequestHash H3 note.root note.nullifierHash recipient
                        env.relayerPayout env.withdrawFee note.amount then
                ⟨w, [.computeRequestHashOnChain, .prove],
                 .err 500 "Generated proof public signals mismatch", []⟩
              else if !verifyWithdrawalView vf w.chain proof note.root note.nullifierHash
                  (computeRequestHash H3 note.root note.nullifierHash recipient
                    env.relayerPayout env.withdrawFee note.amount) then
                ⟨w, [.computeRequestHashOnChain, .prove, .verifyOnChain],
                 .err 400 "Proof verification failed", []⟩
              else
                match reserveZeroFeeWithdrawal vf w.chain.escrow w.chain proof note.root
                    note.nullifierHash
                    (computeRequestHash H3 note.root note.nullifierHash recipient
                      env.relayerPayout env.withdrawFee note.amount)
                    o.authNonceHash o.now with
                | .error _ =>
                    ⟨w, [.computeRequestHashOnChain, .prove, .verifyOnChain,
                         .reserveZeroFee note.nullifierHash o.authNonceHash],
                     .err 500 "Claim failed", []⟩
                | .ok chain1 =>
                  match o.submitRes with
                  | .error e =>
                      match cancelReservedWithdrawal chain1.escrow chain1
                          note.nullifierHash o.authNonceHash (RH e) with
                      | .ok chain2 =>
                          ⟨⟨w.db, chain2⟩,
                           [.computeRequestHashOnChain, .prove, .verifyOnChain,
                            .reserveZeroFee note.nullifierHash o.authNonceHash,
                            .submitTransfer,
                            .cancelReserved note.nullifierHash o.authNonceHash (RH e)],
                           .err 500 "Claim failed",
                           [⟨w.db, chain1⟩, ⟨w.db, chain2⟩]⟩
                      | .error _ =>
                          ⟨⟨w.db, chain1⟩,
                           [.computeRequestHashOnChain, .prove, .verifyOnChain,
                            .reserveZeroFee note.nullifierHash o.authNonceHash,
                            .submitTransfer,
                            .cancelReserved note.nullifierHash o.authNonceHash (RH e)],
                           .err 500 "Claim failed",
                           [⟨w.db, chain1⟩]⟩
                  | .ok authorizationId =>
                      match upsertClaim w.db
                          ⟨o.newClaimId, note.id, note.nullifierHash,
                           computeRequestHash H3 note.root note.nullifierHash recipient
                             env.relayerPayout env.withdrawFee note.amount,
                           some authorizationId, some o.authNonceHash, some o.userIp,
                           .submitted, none, none, none⟩ with
                      | (db1, claimId) =>
                          ⟨⟨db1, chain1⟩,
                           [.computeRequestHashOnChain, .prove, .verifyOnChain,
                            .reserveZeroFee note.nullifierHash o.authNonceHash,
                            .submitTransfer],
                           .ok claimId authorizationId,
                           [⟨w.db, chain1⟩, ⟨db1, chain1⟩]⟩

/-- `resumePendingClaims` from `claim.ts`: the `(claim_id, user_ip)` pairs of
every claim still `submitted`, each of which gets a detached
`processClaimConfirmation` task. -/
def resumePendingClaims (db : DB) : List (String × String) :=
  (db.claims.filter (fun r => r.status == ClaimStatus.submitted)).map
    (fun r => (r.claimId, r.userIp.getD "127.0.0.1"))


/-! ### C4 — compensating cancellation when the relayer submit throws -/

/-- **C4** — whenever the relayer submission throws after the on-chain
reservation succeeded (the run reached the submit step), the handler issues a
`cancelReservedWithdrawal` for the same `nullifierHash` and
`authorizationHash`, with the hashed reason of the thrown error, and only then
propagates the failure to the caller as a 500 response. -/
theorem zeroFee_cancel_on_submit_error (H3 H3c : Nat → Nat → Nat → Nat)
    (vf : List Nat → Nat → Nat → Nat → Bool) (RH : String → Nat)
    (env : ZeroFeeEnv) (o : ZeroFeeOracle) (recipient : Nat) (w : World)
    (e : String) (hsub : o.submitRes = .error e)
    (hmem : ExtCall.submitTransfer ∈ (zeroFeeClaim H3 H3c vf RH env o recipient w).calls) :
    ∃ nh ah,
      (zeroFeeClaim H3 H3c vf RH env o recipient w).calls
        = [.computeRequestHashOnChain, .prove, .verifyOnChain,
           .reserveZeroFee nh ah, .submitTransfer, .cancelReserved nh ah (RH e)] ∧
      (zeroFeeClaim H3 H3c vf RH env o recipient w).response
        = .err 500 "Claim failed" := by
  unfold zeroFeeClaim at hmem ⊢
  rcases hdec : o.decodeToken with edec | ⟨claimTokenId, decodedRecipient⟩
  · try rw [hdec] at hmem
    simp at hmem
  try rw [hdec] at hmem
  try rw [hdec]
  dsimp only at hmem ⊢
  by_cases h1 : decodedRecipient ≠ recipient
  · rw [if_pos h1] at hmem
    simp at hmem
  rw [if_neg h1] at hmem ⊢
  rcases hnote : findNoteByTokenId w.db claimTokenId with _ | note
  · try rw [hnote] at hmem
    simp at hmem
  try rw [hnote] at hmem
  try rw [hnote]
  dsimp only at hmem ⊢
  by_cases h2 : note.spent = true
  · rw [if_pos h2] at hmem
    simp at hmem
  rw [if_neg h2] at hmem ⊢
  by_cases h3 : note.recipient ≠ recipient
  · rw [if_pos h3] at hmem
    simp at hmem
  rw [if_neg h3] at hmem ⊢
  by_cases h4 : env.withdrawFee > note.amount
  · rw [if_pos h4] at hmem
    simp at hmem
  rw [if_neg h4] at hmem ⊢
  by_cases h5 : contractComputeRequestHash H3c note.root note.nullifierHash recipient
      env.relayerPayout env.withdrawFee note.amount
    ≠ computeRequestHash H3 note.root note.nullifierHash recipient
        env.relayerPayout env.withdrawFee note.amount
  · rw [if_pos h5] at hmem
    simp at hmem
  rw [if_neg h5] at hmem ⊢
  rcases hprove : o.proveRes with eprove | ⟨proof, publicSignals⟩
  · try rw [hprove] at hmem
    simp at hmem
  try rw [hprove] at hmem
  try rw [hprove]
  dsimp only at hmem ⊢
  by_cases h6 : publicSignals.length < 3 ∨
      publicSignals.getD 0 0 ≠ note.root ∨
      publicSignals.getD 1 0 ≠ note.nullifierHash ∨
      publicSignals.getD 2 0
        ≠ computeRequestHash H3 note.root note.nullifierHash recipient
            env.relayerPayout env.withdrawFee note.amount
  · rw [if_pos h6] at hmem
    simp at hmem
  rw [if_neg h6] at hmem ⊢
  by_cases h7 : (!verifyWithdrawalView vf w.chain proof note.root note.nullifierHash
      (computeRequestHash H3 note.root note.nullifierHash recipient
        env.relayerPayout env.withdrawFee note.amount)) = true
  · rw [if_pos h7] at hmem
    simp at hmem
  rw [if_neg h7] at hmem ⊢
  rcases hres : reserveZeroFeeWithdrawal vf w.chain.escrow w.chain proof note.root
      note.nullifierHash
      (computeRequestHash H3 note.root note.nullifierHash recipient
        env.relayerPayout env.withdrawFee note.amount)
      o.authNonceHash o.now with eres | chain1
  · try rw [hres] at hmem
    simp at hmem
  try rw [hres] at hmem
  try rw [hres]
  dsimp only at hmem ⊢
  rw [hsub] at hmem ⊢
  dsimp only at hmem ⊢
  rcases hcan : cancelReservedWithdrawal chain1.escrow chain1 note.nullifierHash
      o.authNonceHash (RH e) with ecan | chain2
  · try rw [hcan]
    exact ⟨note.nullifierHash, o.authNonceHash, rfl, rfl⟩
  · try rw [hcan]
    exact ⟨note.nullifierHash, o.authNonceHash, rfl, rfl⟩

/-! ### C6 — request-hash parity between backend and contract -/

/-- **C6** — (1) for all inputs, the backend `computeRequestHash` and the
contract `_computeRequestHash` compute the same value, namely
`Poseidon(Poseidon(root, nullifierHash, recipient), Poseidon(relayer, fee,
amount), 1)` with addresses coerced to field elements; and (2) whenever the
chain's Poseidon disagrees with the backend's on the note's request hash, the
zero-fee handler aborts with the hash-mismatch error before proof generation
and before any on-chain reservation, leaving store and chain untouched. -/
theorem requestHash_parity_and_guard :
    (∀ (H3 : Nat → Nat → Nat → Nat) (root nullifierHash recipient relayer fee amount : Nat),
      computeRequestHash H3 root nullifierHash recipient relayer fee amount
        = contractComputeRequestHash H3 root nullifierHash recipient relayer fee amount ∧
      computeRequestHash H3 root nullifierHash recipient relayer fee amount
        = requestHashSpecFormula H3 root nullifierHash recipient relayer fee amount) ∧
    (∀ (H3 H3c : Nat → Nat → Nat → Nat) (vf : List Nat → Nat → Nat → Nat → Bool)
      (RH : String → Nat) (env : ZeroFeeEnv) (o : ZeroFeeOracle)
      (recipient : Nat) (w : World) (claimTokenId : String) (note : NoteRow),
      o.decodeToken = .ok (claimTokenId, recipient) →
      findNoteByTokenId w.db claimTokenId = some note →
      note.spent = false →
      note.recipient = recipient →
      env.withdrawFee ≤ note.amount →
      contractComputeRequestHash H3c note.root note.nullifierHash recipient
          env.relayerPayout env.withdrawFee note.amount
        ≠ computeRequestHash H3 note.root note.nullifierHash recipient
            env.relayerPayout env.withdrawFee note.amount →
      (zeroFeeClaim H3 H3c vf RH env o recipient w).response
          = .err 500 "Request hash mismatch with contract" ∧
      (zeroFeeClaim H3 H3c vf RH env o recipient w).world = w ∧
      (zeroFeeClaim H3 H3c vf RH env o recipient w).calls = [.computeRequestHashOnChain] ∧
      (zeroFeeClaim H3 H3c vf RH env o recipient w).snapshots = []) := by
  constructor
  · intro H3 root nullifierHash recipient relayer fee amount
    exact ⟨rfl, rfl⟩
  · intro H3 H3c vf RH env o recipient w claimTokenId note
      hdec hnote hspent hrec hfee hmismatch
    unfold zeroFeeClaim
    rw [hdec]
    dsimp only
    rw [if_neg (by simp), hnote]
    dsimp only
    rw [if_neg (by simp [hspent]), if_neg (by simp [hrec]),
      if_neg (by omega), if_pos hmismatch]
    exact ⟨rfl, rfl, rfl, rfl⟩


/-! ### C6 witness fixtures: a chain Poseidon that disagrees with the backend -/

/-- A second worked Poseidon-3, deliberately different from `cH3`. -/
def cH3b : Nat → Nat → Nat → Nat := fun a b c => a + b + c + 2

def zfEnvWit : ZeroFeeEnv := ⟨3, 0⟩

def zfOracleMismatch : ZeroFeeOracle :=
  ⟨.ok ("tok1", 21), .ok ([], []), 17, .ok "a1", "c9", "ip2", 0⟩

def zfWorldWit : World := ⟨⟨[], [witNote], []⟩, witS1⟩

/-- Witness for C6 at a concrete mismatching Poseidon pair. -/
theorem requestHash_parity_and_guard_witness :
    (computeRequestHash cH3 5 11 21 3 0 4000
        = contractComputeRequestHash cH3 5 11 21 3 0 4000) ∧
    (zeroFeeClaim cH3 cH3b vfTrue witRH zfEnvWit zfOracleMismatch 21 zfWorldWit).response
        = .err 500 "Request hash mismatch with contract" ∧
    (zeroFeeClaim cH3 cH3b vfTrue witRH zfEnvWit zfOracleMismatch 21 zfWorldWit).world
        = zfWorldWit ∧
    (zeroFeeClaim cH3 cH3b vfTrue witRH zfEnvWit zfOracleMismatch 21 zfWorldWit).calls
        = [.computeRequestHashOnChain] ∧
    (zeroFeeClaim cH3 cH3b vfTrue witRH zfEnvWit zfOracleMismatch 21 zfWorldWit).snapshots
        = [] := by
  have h := requestHash_parity_and_guard
  have h2 := h.2 cH3 cH3b vfTrue witRH zfEnvWit zfOracleMismatch 21 zfWorldWit
    "tok1" witNote rfl rfl rfl rfl (by decide) (by decide)
  exact ⟨(h.1 cH3 5 11 21 3 0 4000).1, h2.1, h2.2.1, h2.2.2.1, h2.2.2.2⟩

/-! ### C3 — claim-status monotonicity -/

/-- `SELECT ... FROM claims WHERE nullifier_hash = ...` (first matching row;
the column carries a unique index). -/
def findClaimByNh (db : DB) (nh : Nat) : Option ClaimRow :=
  db.claims.find? (fun r => r.nullifierHash == nh)

/-- Oracle for a fully successful retry of the zero-fee claim flow. -/
def zfOracleRetry : ZeroFeeOracle :=
  ⟨.ok ("tok1", 21), .ok ([], [5, 11, 4044]), 17, .ok "a1", "c9", "ip2", 0⟩

/-- **C3 (counterexample)** — the claims upsert `ON CONFLICT (nullifier_hash)
DO UPDATE SET ... status = 'submitted'` moves a `failed` row back to
`submitted`: with note `tok1` unspent and its previous claim row `c1` in
status `failed`, a retried zero-fee claim that succeeds end-to-end rewrites
row `c1` to status `submitted`. -/
theorem claimStatus_monotone_cex :
    (findClaim witDBFailed "c1").map ClaimRow.status = some ClaimStatus.failed ∧
    ((findClaim
        (zeroFeeClaim cH3 cH3 vfTrue witRH zfEnvWit zfOracleRetry 21
          ⟨witDBFailed, witS1⟩).world.db "c1").map ClaimRow.status
      = some ClaimStatus.submitted) := by
  constructor
  · rfl
  · rfl

theorem find?_map_invariant {α : Type} (p : α → Bool) (f : α → α)
    (h1 : ∀ a, p (f a) = p a) (h2 : ∀ a, p a = true → f a = a) :
    ∀ l : List α, (l.map f).find? p = l.find? p
  | [] => rfl
  | a :: l => by
      by_cases hp : p a = true
      · rw [List.map_cons, List.find?_cons_of_pos _ (by rw [h1]; exact hp),
          List.find?_cons_of_pos _ hp, h2 a hp]
      · rw [List.map_cons, List.find?_cons_of_neg _ (by rw [h1]; exact hp),
          List.find?_cons_of_neg _ hp]
        exact find?_map_invariant p f h1 h2 l

theorem find?_append_singleton {α : Type} (p : α → Bool) (x : α) (h : p x = false) :
    ∀ l : List α, (l ++ [x]).find? p = l.find? p
  | [] => by simp [List.find?, h]
  | a :: l => by
      by_cases hp : p a = true
      · rw [List.cons_append, List.find?_cons_of_pos _ hp, List.find?_cons_of_pos _ hp]
      · rw [List.cons_append, List.find?_cons_of_neg _ hp, List.find?_cons_of_neg _ hp]
        exact find?_append_singleton p x h l

/-- The upsert leaves rows for any other nullifier untouched. -/
theorem findClaimByNh_upsert_ne (db : DB) (row : ClaimRow) (nh : Nat)
    (h : row.nullifierHash ≠ nh) :
    findClaimByNh (upsertClaim db row).1 nh = findClaimByNh db nh := by
  unfold upsertClaim findClaimByNh
  match hf : db.claims.find? (fun r => r.nullifierHash == row.nullifierHash) with
  | some existing =>
      try rw [hf]
      try dsimp only
      refine find?_map_invariant _ _ (fun a => ?_) (fun a hp => ?_) db.claims
      · by_cases hc : (a.nullifierHash == row.nullifierHash) = true
        · rw [if_pos hc]
        · rw [if_neg hc]
      · by_cases hc : (a.nullifierHash == row.nullifierHash) = true
        · exfalso
          have h1 : a.nullifierHash = row.nullifierHash := by simpa using hc
          have h2 : a.nullifierHash = nh := by simpa using hp
          exact h (h1 ▸ h2)
        · rw [if_neg hc]
  | none =>
      try rw [hf]
      try dsimp only
      exact find?_append_singleton _ row (by simpa using h) db.claims

/-- Characterization of the zero-fee handler's effect on the store: either the
store is unchanged, or the run reached the upsert for an unspent note found in
the store, and the only change is that upsert. -/
theorem zeroFeeClaim_db_cases (H3 H3c : Nat → Nat → Nat → Nat)
    (vf : List Nat → Nat → Nat → Nat → Bool) (RH : String → Nat)
    (env : ZeroFeeEnv) (o : ZeroFeeOracle) (recipient : Nat) (w : World) :
    (zeroFeeClaim H3 H3c vf RH env o recipient w).world.db = w.db ∨
    ∃ note row, note ∈ w.db.notes ∧ note.spent = false ∧
      row.nullifierHash = note.nullifierHash ∧
      (zeroFeeClaim H3 H3c vf RH env o recipient w).world.db = (upsertClaim w.db row).1 := by
  unfold zeroFeeClaim
  rcases hdec : o.decodeToken with edec | ⟨claimTokenId, decodedRecipient⟩
  · left; rfl
  dsimp only
  by_cases h1 : decodedRecipient ≠ recipient
  · rw [if_pos h1]; left; rfl
  rw [if_neg h1]
  rcases hnote : findNoteByTokenId w.db claimTokenId with _ | note
  · left; rfl
  dsimp only
  by_cases h2 : note.spent = true
  · rw [if_pos h2]; left; rfl
  rw [if_neg h2]
  by_cases h3 : note.recipient ≠ recipient
  · rw [if_pos h3]; left; rfl
  rw [if_neg h3]
  by_cases h4 : env.withdrawFee > note.amount
  · rw [if_pos h4]; left; rfl
  rw [if_neg h4]
  by_cases h5 : contractComputeRequestHash H3c note.root note.nullifierHash recipient
      env.relayerPayout env.withdrawFee note.amount
    ≠ computeRequestHash H3 note.root note.nullifierHash recipient
        env.relayerPayout env.withdrawFee note.amount
  · rw [if_pos h5]; left; rfl
  rw [if_neg h5]
  rcases hprove : o.proveRes with eprove | ⟨proof, publicSignals⟩
  · left; rfl
  try dsimp only
  by_cases h6 : publicSignals.length < 3 ∨
      publicSignals.getD 0 0 ≠ note.root ∨
      publicSignals.getD 1 0 ≠ note.nullifierHash ∨
      publicSignals.getD 2 0
        ≠ computeRequestHash H3 note.root note.nullifierHash recipient
            env.relayerPayout env.withdrawFee note.amount
  · rw [if_pos h6]; left; rfl
  rw [if_neg h6]
  by_cases h7 : (!verifyWithdrawalView vf w.chain proof note.root note.nullifierHash
      (computeRequestHash H3 note.root note.nullifierHash recipient
        env.relayerPayout env.withdrawFee note.amount)) = true
  · rw [if_pos h7]; left; rfl
  rw [if_neg h7]
  rcases hres : reserveZeroFeeWithdrawal vf w.chain.escrow w.chain proof note.root
      note.nullifierHash
      (computeRequestHash H3 note.root note.nullifierHash recipient
        env.relayerPayout env.withdrawFee note.amount)
      o.authNonceHash o.now with eres | chain1
  · left; rfl
  try dsimp only
  rcases hsub : o.submitRes with esub | authorizationId
  · try dsimp only
    rcases hcan : cancelReservedWithdrawal chain1.escrow chain1 note.nullifierHash
        o.authNonceHash (RH esub) with ecan | chain2
    · left; rfl
    · left; rfl
  · try dsimp only
    rcases hup : upsertClaim w.db
        ⟨o.newClaimId, note.id, note.nullifierHash,
         computeRequestHash H3 note.root note.nullifierHash recipient
           env.relayerPayout env.withdrawFee note.amount,
         some authorizationId, some o.authNonceHash, some o.userIp,
         .submitted, none, none, none⟩ with ⟨db1, claimId⟩
    right
    refine ⟨note,
      ⟨o.newClaimId, note.id, note.nullifierHash,
       computeRequestHash H3 note.root note.nullifierHash recipient
         env.relayerPayout env.withdrawFee note.amount,
       some authorizationId, some o.authNonceHash, some o.userIp,
       .submitted, none, none, none⟩,
      List.mem_of_find?_eq_some hnote, by simpa using h2, rfl, ?_⟩
    try rw [hup]
    try rfl


/-- A claim row already driven to `confirmed` (its note spent). -/
def witConfirmedRow : ClaimRow :=
  ⟨"c1", 1, 11, 13, some "a1", some 17, some "ip", .confirmed, some "t1", some "f1", none⟩

/-- **C3 (amended)** — claim status is monotone at `confirmed` but not at
`failed`: (1) as long as every note bearing a nullifier hash is spent — which
holds once its claim is `confirmed` — no zero-fee handler run changes the
claim row stored under that nullifier hash (any retry aborts with
`Already claimed` before its upsert); (2) `processClaimConfirmation` leaves
any non-`submitted` row untouched; (3) `resumePendingClaims` re-attaches
tasks only for `submitted` rows.  A `failed` row, however, is reset to
`submitted` by a retried zero-fee claim upserting on the same nullifier hash
(see the counterexample). -/
theorem claimStatus_monotone_amended :
    (∀ (H3 H3c : Nat → Nat → Nat → Nat) (vf : List Nat → Nat → Nat → Nat → Bool)
      (RH : String → Nat) (env : ZeroFeeEnv) (o : ZeroFeeOracle)
      (recipient : Nat) (w : World) (nh : Nat),
      (∀ n ∈ w.db.notes, n.nullifierHash = nh → n.spent = true) →
      findClaimByNh (zeroFeeClaim H3 H3c vf RH env o recipient w).world.db nh
        = findClaimByNh w.db nh) ∧
    (∀ (RH : String → Nat) (o : ConfirmOracle) (db : DB) (claimId : String)
      (row : ClaimRow),
      findClaim db claimId = some row → row.status ≠ .submitted →
      processClaimConfirmation RH o db claimId = (db, [])) ∧
    (∀ (db : DB) (p : String × String), p ∈ resumePendingClaims db →
      ∃ r, r ∈ db.claims ∧ r.claimId = p.1 ∧ r.status = ClaimStatus.submitted) := by
  refine ⟨?_, ?_, ?_⟩
  · intro H3 H3c vf RH env o recipient w nh hAllSpent
    rcases zeroFeeClaim_db_cases H3 H3c vf RH env o recipient w with
      hdb | ⟨note, row, hmem, hspent, hnh, hdb⟩
    · rw [hdb]
    · rw [hdb]
      refine findClaimByNh_upsert_ne w.db row nh ?_
      intro heq
      have hn : note.nullifierHash = nh := hnh ▸ heq
      have := hAllSpent note hmem hn
      rw [this] at hspent
      exact Bool.noConfusion hspent
  · intro RH o db claimId row hrow hst
    exact confirm_noop_of_guard RH o db claimId (Or.inr ⟨row, hrow, Or.inl hst⟩)
  · intro db p hp
    unfold resumePendingClaims at hp
    obtain ⟨r, hr, hpr⟩ := List.mem_map.mp hp
    obtain ⟨hrmem, hrsub⟩ := List.mem_filter.mp hr
    exact ⟨r, hrmem, by rw [← hpr], by simpa using hrsub⟩

/-- Witness for the amended C3: a retry against a spent note leaves the
`confirmed` row untouched; `processClaimConfirmation` leaves a `failed` row
untouched; the recovery scan lists only `submitted` rows. -/
theorem claimStatus_monotone_amended_witness :
    findClaimByNh (zeroFeeClaim cH3 cH3 vfTrue witRH zfEnvWit zfOracleRetry 21
        ⟨⟨[], [{ witNote with spent := true }], [witConfirmedRow]⟩, witS1⟩).world.db 11
      = findClaimByNh ⟨[], [{ witNote with spent := true }], [witConfirmedRow]⟩ 11 ∧
    processClaimConfirmation witRH witOracleOk witDBFailed "c1" = (witDBFailed, []) ∧
    (∃ r, r ∈ witDB.claims ∧ r.claimId = "c1" ∧ r.status = ClaimStatus.submitted) :=
  have h := claimStatus_monotone_amended
  ⟨h.1 cH3 cH3 vfTrue witRH zfEnvWit zfOracleRetry 21
      ⟨⟨[], [{ witNote with spent := true }], [witConfirmedRow]⟩, witS1⟩ 11 (by decide),
   h.2.1 witRH witOracleOk witDBFailed "c1" witFailedRow rfl (by decide),
   h.2.2 witDB ("c1", "ip") (by decide)⟩

/-! ### C2 — crash recovery between reservation and persistence -/

/-- The on-chain state at the crash point right after step 7 of the concrete
zero-fee run: nullifier 11 reserved under request hash 4044 and authorization
hash 17, nothing spent. -/
def cChain1 : ContractState where
  escrow := 1
  latestRoot := 5
  rootCount := 1
  knownRoots := fun r => if r = 5 then true else false
  processedBatchIds := fun b => if b = 7 then true else false
  nullifierSpent := fun _ => false
  pendingWithdrawals := fun nh => if nh = 11 then some ⟨4044, 17, 0⟩ else none

/-- **C2 (counterexample)** — a crash after step 7 (on-chain reservation
succeeded) but before step 9 (claims upsert) is NOT recovered: the first
persistent-state snapshot of a concrete successful zero-fee run has no claim
row at all, so `resumePendingClaims` finds nothing to resume, while the
on-chain reservation for the note's nullifier is still pending — a fresh
reservation reverts with `NullifierAlreadyReserved` and the backend's
pre-flight `verifyWithdrawal` check returns `false`, so the note stays
unreleasable without manual cancellation. -/
theorem crashRecovery_cex :
    (zeroFeeClaim cH3 cH3 vfTrue witRH zfEnvWit zfOracleRetry 21
        ⟨⟨[], [witNote], []⟩, witS1⟩).snapshots.getD 0 ⟨⟨[], [witNote], []⟩, witS1⟩
      = ⟨⟨[], [witNote], []⟩, cChain1⟩ ∧
    resumePendingClaims ⟨[], [witNote], []⟩ = [] ∧
    (cChain1.pendingWithdrawals 11).isSome = true ∧
    cChain1.nullifierSpent 11 = false ∧
    reserveZeroFeeWithdrawal vfTrue 1 cChain1 [] 5 11 4044 17 0
      = .error CErr.NullifierAlreadyReserved ∧
    verifyWithdrawalView vfTrue cChain1 [] 5 11 4044 = false :=
  ⟨rfl, rfl, rfl, rfl, rfl, rfl⟩

/-- **C2 (amended)** — crashes at or after step 9 are recovered: for every
store state holding a claim row with status `submitted` and non-null
authorization fields (exactly what the upsert persists), `resumePendingClaims`
re-attaches a confirmation task for that row, and every complete
`processClaimConfirmation` run drives it to a terminal status (`confirmed` or
`failed`), whatever the relayer/chain oracle outcomes.  A crash after the
on-chain reservation but before the claims upsert is not recovered (see the
counterexample): the reservation stays pending with no automatic path. -/
theorem crashRecovery_after_persist (RH : String → Nat) (o : ConfirmOracle)
    (db : DB) (claimId : String) (row : ClaimRow) (aid : String) (ah : Nat)
    (hrow : findClaim db claimId = some row)
    (hsub : row.status = .submitted)
    (haid : row.authorizationId = some aid)
    (hah : row.authorizationHash = some ah) :
    (row.claimId, row.userIp.getD "127.0.0.1") ∈ resumePendingClaims db ∧
    ((findClaim (processClaimConfirmation RH o db claimId).1 claimId).map
        ClaimRow.status = some .confirmed ∨
     (findClaim (processClaimConfirmation RH o db claimId).1 claimId).map
        ClaimRow.status = some .failed) := by
  constructor
  · unfold resumePendingClaims
    refine List.mem_map.mpr ⟨row, List.mem_filter.mpr
      ⟨List.mem_of_find?_eq_some hrow, by simp [hsub]⟩, rfl⟩
  · exact confirm_terminal RH o db claimId row aid ah hrow hsub haid hah

/-- Witness for the amended C2: the store persisted by step 9 of the concrete
run, resumed with an all-success oracle. -/
theorem crashRecovery_after_persist_witness :
    ("c1", "ip") ∈ resumePendingClaims witDB ∧
    ((findClaim (processClaimConfirmation witRH witOracleOk witDB "c1").1 "c1").map
        ClaimRow.status = some .confirmed ∨
     (findClaim (processClaimConfirmation witRH witOracleOk witDB "c1").1 "c1").map
        ClaimRow.status = some .failed) :=
  crashRecovery_after_persist witRH witOracleOk witDB "c1" witClaimRow "a1" 17
    rfl rfl rfl rfl


/-! ## Batch creation — `payroll.post("/create")` in `payroll.ts`

Everything inside the `withAdvisoryLock(PAYROLL_CREATE_LOCK_KEY, ...)` critical
section, from `loadExistingCommitments` through the `withTransaction` block.
`registerRootOnChain`/`waitForReceipt` is an external oracle; the random
sampling of `secret`/`nullifier` (`generateRandomFieldElement`) and the claim
token ids are oracle streams indexed by note position.  `H1` is Poseidon on one
input (`nullifierHash = poseidonHash([nullifier])`); commitments are
`poseidonHash([amount, secret, nullifier])`. -/

/-- A note as assembled by `buildNotes` before persistence. -/
structure GeneratedNote where
  recipient : Nat
  amount : Nat
  secret : Nat
  nullifier : Nat
  nullifierHash : Nat
  commitment : Nat
  leafIndex : Nat
  pathElements : List Nat
  pathIndices : List Nat
  claimTokenId : String
  deriving DecidableEq, Repr

/-- Insertion step of the `ORDER BY leaf_index ASC` model. -/
def insertByLeafIndex (n : NoteRow) : List NoteRow → List NoteRow
  | [] => [n]
  | m :: rest =>
      if n.leafIndex ≤ m.leafIndex then n :: m :: rest
      else m :: insertByLeafIndex n rest

/-- Sort the notes table by `leaf_index` (insertion sort). -/
def sortByLeafIndex : List NoteRow → List NoteRow
  | [] => []
  | n :: rest => insertByLeafIndex n (sortByLeafIndex rest)

/-- `loadExistingCommitments`: `SELECT commitment FROM notes ORDER BY
leaf_index ASC`. -/
def loadExistingCommitments (db : DB) : List Nat :=
  (sortByLeafIndex db.notes).map (fun n => n.commitment)

/-- `buildNotes(recipients, amounts, existingCommitments)`: sample fresh note
secrets, derive hashes and leaf indices, then compute each new note's Merkle
path against the combined (old + new) leaf set. -/
def buildNotes (H2 : Nat → Nat → Nat) (H1 : Nat → Nat) (H3 : Nat → Nat → Nat → Nat)
    (depth : Nat) (secrets nullifiers : Nat → Nat) (tokenIds : Nat → String)
    (pairs : List (Nat × Nat)) (existing : List Nat) : List GeneratedNote :=
  let notes0 := pairs.enum.map (fun x =>
    { recipient := x.2.1
      amount := x.2.2
      secret := secrets x.1
      nullifier := nullifiers x.1
      nullifierHash := H1 (nullifiers x.1)
      commitment := H3 x.2.2 (secrets x.1) (nullifiers x.1)
      leafIndex := existing.length + x.1
      pathElements := []
      pathIndices := []
      claimTokenId := tokenIds x.1 : GeneratedNote })
  let fullLeaves := existing ++ notes0.map (fun n => n.commitment)
  notes0.map (fun n =>
    let pr := (computeMerkleProof H2 fullLeaves depth n.leafIndex).getD ([], [])
    { n with pathElements := pr.1, pathIndices := pr.2 })

/-- The note row persisted for a generated note (`INSERT INTO notes ...`); the
`BIGSERIAL id` is modelled as the note's globally unique leaf index. -/
def noteRowOf (batchId : String) (root : Nat) (n : GeneratedNote) : NoteRow where
  id := n.leafIndex
  batchId := batchId
  recipient := n.recipient
  amount := n.amount
  secret := n.secret
  nullifier := n.nullifier
  nullifierHash := n.nullifierHash
  commitment := n.commitment
  leafIndex := n.leafIndex
  root := root
  pathElements := n.pathElements
  pathIndices := n.pathIndices
  claimTokenId := n.claimTokenId
  spent := false

/-- External outcomes for one batch creation: the root-registration
transaction (`registerRootOnChain` + `waitForReceipt`, a thrown error models
either failing), an optional injected failure index for the statements inside
the database transaction (`0` = the batch insert, `i + 1` = the `i`-th note
insert), the random batch id, and the note-entropy streams. -/
structure CreateOracle where
  registerRes : Except String String
  txFailAt : Option Nat
  batchId : String
  secrets : Nat → Nat
  nullifiers : Nat → Nat
  tokenIds : Nat → String

/-- The sequential `INSERT INTO notes` statements inside the transaction;
statement `k` throws when `failAt = some k`. -/
def insertNoteRows (failAt : Option Nat) : Nat → List NoteRow → DB → Except String DB
  | _, [], db => .ok db
  | k, n :: rest, db =>
      if failAt = some k then .error "insert notes failed"
      else insertNoteRows failAt (k + 1) rest { db with notes := db.notes ++ [n] }

/-- The body passed to `withTransaction`: the batch insert followed by one
insert per note. -/
def createTxBody (failAt : Option Nat) (batch : BatchRow) (noteRows : List NoteRow)
    (db : DB) : Except String DB :=
  if failAt = some 0 then .error "insert batches failed"
  else insertNoteRows failAt 1 noteRows { db with batches := db.batches ++ [batch] }

/-- `withTransaction` from `db.ts`: `BEGIN`, run the body, `COMMIT` on success;
on a thrown error `ROLLBACK` — the caller keeps the pre-transaction store —
and rethrow. -/
def withTransaction (f : DB → Except String DB) (db : DB) : DB × Except String Unit :=
  match f db with
  | .ok db' => (db', .ok ())
  | .error e => (db, .error e)

/-- The critical section of `payroll.post("/create")` (inside the advisory
lock): load the leaf set, build the new notes, compute the combined root,
register the root on-chain, then persist batch + notes in one transaction.
Returns the (possibly updated) store and either `(batchId, root, registerTx)`
or the propagated error. -/
def payrollCreateCritical (H2 : Nat → Nat → Nat) (H1 : Nat → Nat)
    (H3 : Nat → Nat → Nat → Nat) (depth : Nat) (o : CreateOracle)
    (recipients amounts : List Nat) (totalAmount employer : Nat)
    (relayerAuthId : String) (fundingTx : Option String) (db : DB) :
    DB × Except String (String × Nat × String) :=
  let existing := loadExistingCommitments db
  let notes := buildNotes H2 H1 H3 depth o.secrets o.nullifiers o.tokenIds
    (recipients.zip amounts) existing
  let finalRoot := computeMerkleRoot H2
    (existing ++ notes.map (fun n => n.commitment)) depth
  match o.registerRes with
  | .error e => (db, .error e)
  | .ok registerTxHash =>
      let batch : BatchRow :=
        { batchId := o.batchId
          employerAddress := employer
          totalAmount := totalAmount
          noteCount := notes.length
          root := finalRoot
          cumulativeLeafCount := existing.length + notes.length
          fundingAuthorizationId := some relayerAuthId
          fundingTxHash := fundingTx
          registerTxHash := some registerTxHash
          status := "registered" }
      let noteRows := notes.map (noteRowOf o.batchId finalRoot)
      match withTransaction (createTxBody o.txFailAt batch noteRows) db with
      | (db', .ok _) => (db', .ok (o.batchId, finalRoot, registerTxHash))
      | (db', .error e) => (db', .error e)


theorem insertNoteRows_none :
    ∀ (rows : List NoteRow) (k : Nat) (db : DB),
      insertNoteRows none k rows db = .ok { db with notes := db.notes ++ rows }
  | [], k, db => by simp [insertNoteRows]
  | n :: rest, k, db => by
      rw [insertNoteRows, if_neg (by simp)]
      rw [insertNoteRows_none rest (k + 1) { db with notes := db.notes ++ [n] }]
      simp

theorem insertNoteRows_fail :
    ∀ (rows : List NoteRow) (k j : Nat) (db : DB), k ≤ j → j < k + rows.length →
      insertNoteRows (some j) k rows db = .error "insert notes failed"
  | [], k, j, db, h1, h2 => by simp at h2; omega
  | n :: rest, k, j, db, h1, h2 => by
      by_cases hk : j = k
      · rw [insertNoteRows, if_pos (by rw [hk])]
      · rw [insertNoteRows, if_neg (by simp; omega)]
        exact insertNoteRows_fail rest (k + 1) j _ (by omega) (by simp at h2; omega)

theorem withTransaction_createTxBody_none (batch : BatchRow) (noteRows : List NoteRow)
    (db : DB) :
    withTransaction (createTxBody none batch noteRows) db
      = ({ db with batches := db.batches ++ [batch], notes := db.notes ++ noteRows },
         .ok ()) := by
  unfold withTransaction createTxBody
  rw [if_neg (by simp), insertNoteRows_none]

theorem withTransaction_createTxBody_some (k : Nat) (batch : BatchRow)
    (noteRows : List NoteRow) (db : DB) (hk : k ≤ noteRows.length) :
    withTransaction (createTxBody (some k) batch noteRows) db
      = (db, .error (if k = 0 then "insert batches failed" else "insert notes failed")) := by
  unfold withTransaction createTxBody
  by_cases h0 : k = 0
  · rw [if_pos (by rw [h0]), if_pos h0]
  · rw [if_neg (by simpa using h0),
      insertNoteRows_fail noteRows 1 k _ (by omega) (by omega), if_neg h0]

theorem buildNotes_length (H2 : Nat → Nat → Nat) (H1 : Nat → Nat)
    (H3 : Nat → Nat → Nat → Nat) (depth : Nat) (secrets nullifiers : Nat → Nat)
    (tokenIds : Nat → String) (pairs : List (Nat × Nat)) (existing : List Nat) :
    (buildNotes H2 H1 H3 depth secrets nullifiers tokenIds pairs existing).length
      = pairs.length := by
  unfold buildNotes
  simp


/-- **C7** — batch creation is atomic.  (1) If on-chain root registration
fails, the store is returned unchanged with the error: no batch row and no
note rows are persisted.  (2) If any statement of the persistence transaction
throws (the batch insert or any note insert), the transaction rolls back —
the store is returned unchanged, nothing partial — and the operation is
rejected with an error.  (3) When everything succeeds, the batch row and all
of its note rows are committed together. -/
theorem payrollCreate_atomic (H2 : Nat → Nat → Nat) (H1 : Nat → Nat)
    (H3 : Nat → Nat → Nat → Nat) (depth : Nat) (o : CreateOracle)
    (recipients amounts : List Nat) (totalAmount employer : Nat)
    (relayerAuthId : String) (fundingTx : Option String) (db : DB) :
    (∀ e, o.registerRes = .error e →
      payrollCreateCritical H2 H1 H3 depth o recipients amounts totalAmount
        employer relayerAuthId fundingTx db = (db, .error e)) ∧
    (∀ tx k, o.registerRes = .ok tx → o.txFailAt = some k →
      k ≤ (recipients.zip amounts).length →
      (payrollCreateCritical H2 H1 H3 depth o recipients amounts totalAmount
        employer relayerAuthId fundingTx db).1 = db ∧
      ∃ e, (payrollCreateCritical H2 H1 H3 depth o recipients amounts totalAmount
        employer relayerAuthId fundingTx db).2 = .error e) ∧
    (∀ tx, o.registerRes = .ok tx → o.txFailAt = none →
      ∃ batch noteRows,
        (payrollCreateCritical H2 H1 H3 depth o recipients amounts totalAmount
          employer relayerAuthId fundingTx db).1.batches = db.batches ++ [batch] ∧
        (payrollCreateCritical H2 H1 H3 depth o recipients amounts totalAmount
          employer relayerAuthId fundingTx db).1.notes = db.notes ++ noteRows ∧
        noteRows.length = (recipients.zip amounts).length ∧
        (payrollCreateCritical H2 H1 H3 depth o recipients amounts totalAmount
          employer relayerAuthId fundingTx db).2 = .ok (o.batchId,
            computeMerkleRoot H2
              (loadExistingCommitments db ++
                (buildNotes H2 H1 H3 depth o.secrets o.nullifiers o.tokenIds
                  (recipients.zip amounts) (loadExistingCommitments db)).map
                  (fun n => n.commitment))
              depth, tx)) := by
  refine ⟨?_, ?_, ?_⟩
  · intro e hre
    unfold payrollCreateCritical
    rw [hre]
  · intro tx k hre hfail hk
    unfold payrollCreateCritical
    rw [hre, hfail]
    dsimp only
    rw [withTransaction_createTxBody_some]
    · exact ⟨rfl, _, rfl⟩
    · rw [List.length_map, buildNotes_length]
      exact hk
  · intro tx hre hnone
    unfold payrollCreateCritical
    rw [hre, hnone]
    dsimp only
    rw [withTransaction_createTxBody_none]
    refine ⟨_, _, rfl, rfl, ?_, rfl⟩
    rw [List.length_map, buildNotes_length]

/-- Concrete oracle for the C7 witness: registration succeeds and no insert
fails. -/
def witCreateOracle : CreateOracle where
  registerRes := .ok "rtx"
  txFailAt := none
  batchId := "b1"
  secrets := fun i => 100 + i
  nullifiers := fun i => 200 + i
  tokenIds := fun i => String.append "t" (Nat.repr i)

/-- Witness for C7: one-recipient batch against an empty store commits the
batch row together with its single note row. -/
theorem payrollCreate_atomic_witness :
    ∃ batch noteRows,
      (payrollCreateCritical cH2 (fun n => n + 7) cH3 2 witCreateOracle [21] [4000]
        4000 9 "ra" (some "ftx") ⟨[], [], []⟩).1.batches
        = ([] : List BatchRow) ++ [batch] ∧
      (payrollCreateCritical cH2 (fun n => n + 7) cH3 2 witCreateOracle [21] [4000]
        4000 9 "ra" (some "ftx") ⟨[], [], []⟩).1.notes
        = ([] : List NoteRow) ++ noteRows ∧
      noteRows.length = (([21] : List Nat).zip ([4000] : List Nat)).length ∧
      (payrollCreateCritical cH2 (fun n => n + 7) cH3 2 witCreateOracle [21] [4000]
        4000 9 "ra" (some "ftx") ⟨[], [], []⟩).2 = .ok ("b1",
          computeMerkleRoot cH2
            (loadExistingCommitments ⟨[], [], []⟩ ++
              (buildNotes cH2 (fun n => n + 7) cH3 2 witCreateOracle.secrets
                witCreateOracle.nullifiers witCreateOracle.tokenIds
                (([21] : List Nat).zip ([4000] : List Nat))
                (loadExistingCommitments ⟨[], [], []⟩)).map
                (fun n => n.commitment))
            2, "rtx") :=
  (payrollCreate_atomic cH2 (fun n => n + 7) cH3 2 witCreateOracle [21] [4000]
    4000 9 "ra" (some "ftx") ⟨[], [], []⟩).2.2 "rtx" rfl rfl


/-- Oracle where the relayer submission throws after a successful
reservation. -/
def zfOracleSubmitFail : ZeroFeeOracle :=
  ⟨.ok ("tok1", 21), .ok ([], [5, 11, 4044]), 17, .error "relayer down", "c9", "ip2", 0⟩

/-- Witness for C4: the concrete run whose relayer submission throws issues
the compensating cancellation before surfacing the 500. -/
theorem zeroFee_cancel_on_submit_error_witness :
    ∃ nh ah,
      (zeroFeeClaim cH3 cH3 vfTrue witRH zfEnvWit zfOracleSubmitFail 21
        ⟨⟨[], [witNote], []⟩, witS1⟩).calls
        = [.computeRequestHashOnChain, .prove, .verifyOnChain,
           .reserveZeroFee nh ah, .submitTransfer,
           .cancelReserved nh ah (witRH "relayer down")] ∧
      (zeroFeeClaim cH3 cH3 vfTrue witRH zfEnvWit zfOracleSubmitFail 21
        ⟨⟨[], [witNote], []⟩, witS1⟩).response
        = .err 500 "Claim failed" :=
  zeroFee_cancel_on_submit_error cH3 cH3 vfTrue witRH zfEnvWit zfOracleSubmitFail 21
    ⟨⟨[], [witNote], []⟩, witS1⟩ "relayer down" rfl (by decide)

end ZkPayroll
